import Mathlib

/-!
Shallow embedding of `src/esp32/breath_pipeline.h` (class `BreathPipeline`).

Modelling conventions:
* C `float` arithmetic is modelled exactly over `ℚ` (the claims under study are
  structural / order-of-operations properties, not rounding properties); the one
  transcendental function, `expf` in `alphaFromTau`, is modelled over `ℝ` with
  `Real.exp`.
* C unsigned 32-bit subtraction `a - b` on `uint32_t` is modelled by `sub32`.
* The function-local `static` variables of the source (`prevEnv` in
  `detectArtifact`, `prevAbove` / `lastEventMs` in `peakDetectAndRR`,
  `apneaActive` in `updateApneaFSM`, `hypoStartMs` / `hypoActive` in
  `updateHypopneaFSM`) are modelled as fields of `PipelineState`; they persist
  across calls exactly as C statics do, and `begin` does not touch them.
* The fixed C arrays `_tele`, `_burstCh1`, `_burstCh2` are modelled as total
  maps `ℕ → _`; `_rrBuf` (6 entries) and `maBuf` (8 entries) as lists.
* Event delivery through the registered callback is modelled by returning the
  list of events a tick would deliver (the source guards each call with
  `if (_cb)`; the list is the sequence of callback invocations when a callback
  is registered).
-/

namespace BreathPipeline

/-- 2^32, the modulus of `uint32_t` arithmetic. -/
def U32 : ℕ := 4294967296

/-- Unsigned 32-bit subtraction `a - b` (wrapping), as the source's
`uint32_t` differences like `nowMs - lastCrossMs`. -/
def sub32 (a b : ℕ) : ℕ := (a % U32 + (U32 - b % U32)) % U32

/-- The C cast `(uint32_t)(sec * 1000.0f)` applied to a (nonnegative) duration
in seconds: milliseconds, truncated toward zero. -/
def msOf (sec : ℚ) : ℕ := (Int.floor (sec * 1000)).toNat

/-- `static constexpr size_t TELE_CAP = 256`. -/
def TELE_CAP : ℕ := 256

/-- `static constexpr uint8_t RR_WIN = 6`. -/
def RR_WIN : ℕ := 6

/-- `static constexpr size_t BURST_CAP = 16000`. -/
def BURST_CAP : ℕ := 16000

/-- `ChannelState::MAX_MA = 8`. -/
def MAX_MA : ℕ := 8

/-- `enum class PrimaryChannel`. -/
inductive PrimaryChannel where
  | CH1_A0
  | CH2_A1
deriving DecidableEq, Repr

/-- The `adsGain_t` PGA selector (the six values the source's switches handle). -/
inductive Gain where
  | twothirds
  | one
  | two
  | four
  | eight
  | sixteen
deriving DecidableEq, Repr

/-- `enum class EventType`. -/
inductive EventType where
  | ApneaStart
  | ApneaEnd
  | HypopneaStart
  | HypopneaEnd
  | ArtifactDetected
deriving DecidableEq, Repr

/-- `struct Event { EventType type; uint32_t tsMs; uint32_t durationMs; }`. -/
structure Event where
  type : EventType
  tsMs : ℕ
  durationMs : ℕ
deriving DecidableEq, Repr

/-- `struct Config` (fields used by the modelled operations, with the source's
defaults). -/
structure Config where
  fsProcHz : ℕ := 100
  useADS1115 : Bool := false
  adsGain : Gain := Gain.sixteen
  adsChannel1 : ℕ := 0
  adsChannel2 : ℕ := 1
  primaryChannel : PrimaryChannel := PrimaryChannel.CH2_A1
  baselineTauSec : ℚ := 5
  antiRingTaps : ℕ := 3
  envTauSec : ℚ := 3/10
  minPeakDistanceSec : ℚ := 3/5
  refractorySec : ℚ := 2/5
  thrEmaTauSec : ℚ := 60
  thrFactor : ℚ := 9/20
  hypopneaFrac : ℚ := 1/2
  hypopneaMinSec : ℚ := 10
  apneaMinSec : ℚ := 20
  recoveryMinSec : ℚ := 3
  railMarginMV : ℚ := 2
  spikeDerivMV : ℚ := 30
  rmsBurstFactor : ℚ := 3
  burstFsHz : ℕ := 1000
  burstPreMs : ℕ := 3000
  burstPostMs : ℕ := 3000

/-- The source's default-initialised `Config`. -/
def defaultConfig : Config := {}

/-- `struct ChannelState` (the moving-average buffer is the fixed 8-slot
array `maBuf`). -/
structure ChannelState where
  dcBaseline : ℚ := 0
  maBuf : List ℚ := List.replicate MAX_MA 0
  maIdx : ℕ := 0
  maFill : ℕ := 0
  env : ℚ := 0
  envBaseline : ℚ := 0
  lastPeakMs : ℕ := 0
  lastCrossMs : ℕ := 0
  lastEnvPeak : ℚ := 0

/-- The zero-initialised `ChannelState` of a freshly constructed pipeline. -/
def ChannelState.init : ChannelState := {}

/-- `struct Status` (zero-initialised by default, and by `_stat = {}`). -/
structure Status where
  bpm : ℚ := 0
  signalOK : Bool := false
  apneaActive : Bool := false
  hypopneaActive : Bool := false
  artifact : Bool := false
  envPrimary : ℚ := 0
  envBaselinePrimary : ℚ := 0
  thresholdPrimary : ℚ := 0
  snrEstimate : ℚ := 0

/-- The all-zero `Status`, the value of `_stat = {}` in `begin`. -/
def Status.init : Status := {}

/-- `struct Telemetry`. -/
structure Telemetry where
  tsMs : ℕ := 0
  bpm : ℚ := 0
  signalOK : Bool := false
  apnea : Bool := false
  hypopnea : Bool := false
  artifact : Bool := false
  env : ℚ := 0
  thr : ℚ := 0

/-- `railMilliVolts()`: full-scale rail in millivolts for the active gain. -/
def railMilliVolts (g : Gain) : ℚ :=
  match g with
  | Gain.twothirds => 6144
  | Gain.one => 4096
  | Gain.two => 2048
  | Gain.four => 1024
  | Gain.eight => 512
  | Gain.sixteen => 256

/-- `computeLsbMilliVolts(ads1115, gain)`: LSB scale in millivolts. -/
def computeLsbMilliVolts (ads1115 : Bool) (g : Gain) : ℚ :=
  let fsV : ℚ :=
    match g with
    | Gain.twothirds => 6144/1000
    | Gain.one => 4096/1000
    | Gain.two => 2048/1000
    | Gain.four => 1024/1000
    | Gain.eight => 512/1000
    | Gain.sixteen => 256/1000
  let lsbV := if ads1115 then fsV / 32768 else fsV / 2048
  lsbV * 1000

/-- `countsToMilliVolts(counts)` with the member `_lsb_mV` passed explicitly. -/
def countsToMilliVolts (lsb : ℚ) (counts : ℤ) : ℚ := (counts : ℚ) * lsb

/-- `processOne(ChannelState& C, float mv)`: DC-baseline EMA, anti-ring moving
average, rectification, envelope EMA, and the asymmetric envelope-peak
baseline update.  The smoothing coefficients `_alphaDC`, `_alphaEnv`,
`_alphaThr` and the config tap count are passed explicitly. -/
def processOne (aDC aEnv aThr : ℚ) (antiRingTaps : ℕ) (C : ChannelState)
    (mv : ℚ) : ChannelState :=
  let dc := (1 - aDC) * C.dcBaseline + aDC * mv
  let detr := mv - dc
  let taps := min MAX_MA (max 1 antiRingTaps)
  let buf := C.maBuf.set C.maIdx detr
  let idx := (C.maIdx + 1) % taps
  let fill := if C.maFill < taps then C.maFill + 1 else C.maFill
  let ma := (buf.take fill).foldl (· + ·) 0 / ((max 1 fill : ℕ) : ℚ)
  let rect := |ma|
  let env := (1 - aEnv) * C.env + aEnv * rect
  if C.envBaseline < env then
    { dcBaseline := dc, maBuf := buf, maIdx := idx, maFill := fill, env := env,
      envBaseline := (1 - aThr) * C.envBaseline + aThr * env,
      lastPeakMs := C.lastPeakMs, lastCrossMs := C.lastCrossMs,
      lastEnvPeak := env }
  else
    { dcBaseline := dc, maBuf := buf, maIdx := idx, maFill := fill, env := env,
      envBaseline := max (C.envBaseline * (9995/10000)) (env * (9/10)),
      lastPeakMs := C.lastPeakMs, lastCrossMs := C.lastCrossMs,
      lastEnvPeak := C.lastEnvPeak }

/-- `detectArtifact(const ChannelState& C, float mv)`.  The function-local
`static float prevEnv` is passed in and the (possibly updated) value is
returned alongside the flag.  Note the source returns from the rail check
before the `prevEnv` update line runs, so on a rail artifact `prevEnv` is
left stale, exactly as here. -/
def detectArtifact (cfg : Config) (prevEnv : ℚ) (C : ChannelState) (mv : ℚ) :
    Bool × ℚ :=
  let railMv := railMilliVolts cfg.adsGain
  if |railMv - (|mv|)| ≤ cfg.railMarginMV then (true, prevEnv)
  else
    let dEnv := C.env - prevEnv
    let pe := C.env
    if cfg.spikeDerivMV < |dEnv| then (true, pe)
    else
      let base := max C.envBaseline (1/1000000)
      if cfg.rmsBurstFactor * base < C.env then (true, pe)
      else (false, pe)

/-- Inner loop of `robustBpm`'s exchange sort, carried over a list: with
`tmp[i] = x` and the tail of the array `l`, scan `j = i+1 ..` and swap
whenever `tmp[j] < tmp[i]`.  Returns the final value of `tmp[i]` together
with the values left behind in positions `i+1 ..`. -/
def exchPass : ℚ → List ℚ → ℚ × List ℚ
  | x, [] => (x, [])
  | x, y :: ys =>
    if y < x then
      ((exchPass y ys).1, x :: (exchPass y ys).2)
    else
      ((exchPass x ys).1, y :: (exchPass x ys).2)

theorem exchPass_length (x : ℚ) (l : List ℚ) :
    (exchPass x l).2.length = l.length := by
  induction l generalizing x with
  | nil => simp [exchPass]
  | cons y ys ih =>
    by_cases h : y < x <;> simp [exchPass, h, ih]

/-- Outer loop of `robustBpm`'s exchange sort (`for i { for j > i { swap } }`):
each outer iteration moves the minimum of the remaining suffix into place. -/
def exchSort : List ℚ → List ℚ
  | [] => []
  | x :: xs => (exchPass x xs).1 :: exchSort (exchPass x xs).2
termination_by l => l.length
decreasing_by simp [exchPass_length]

/-- `robustBpm()`: copy the filled prefix of the interval ring, exchange-sort
it, and take the median (averaging the two middle entries for even counts). -/
def robustBpm (rrBuf : List ℚ) (rrFill : ℕ) : ℚ :=
  let n := rrFill
  let tmp := exchSort (rrBuf.take n)
  if n = 0 then 0
  else if n % 2 = 1 then tmp.getD (n / 2) 0
  else (tmp.getD (n / 2 - 1) 0 + tmp.getD (n / 2) 0) / 2

/-- Median as the spec states it ("median of the current ring contents, where
an even count averages the two middle values"), written over Mathlib's
`insertionSort` and independent of the source's sorting loop. -/
def medianOfRates (l : List ℚ) : ℚ :=
  let srt := l.insertionSort (· ≤ ·)
  let n := l.length
  if n = 0 then 0
  else if n % 2 = 1 then srt.getD (n / 2) 0
  else (srt.getD (n / 2 - 1) 0 + srt.getD (n / 2) 0) / 2

/-- The state read and written by `peakDetectAndRR`: the primary channel,
the function-local statics `prevAbove` / `lastEventMs`, the interval ring
`_rrBuf` / `_rrIdx` / `_rrFill`, and the published `_stat.bpm`. -/
structure PeakState where
  C : ChannelState
  prevAbove : Bool
  lastEventMs : ℕ
  rrBuf : List ℚ
  rrIdx : ℕ
  rrFill : ℕ
  bpm : ℚ

/-- `peakDetectAndRR(ChannelState& C, uint32_t nowMs)`. -/
def peakDetectAndRR (cfg : Config) (nowMs : ℕ) (p : PeakState) : PeakState :=
  let thr := cfg.thrFactor * max p.C.envBaseline (1/1000000)
  let above := decide (thr ≤ p.C.env)
  let rising := above && !p.prevAbove
  let minDistMs := msOf cfg.minPeakDistanceSec
  let refractoryMs := msOf cfg.refractorySec
  if rising && decide (minDistMs ≤ sub32 nowMs p.C.lastPeakMs)
      && decide (refractoryMs ≤ sub32 nowMs p.lastEventMs) then
    let p1 :=
      if p.C.lastPeakMs ≠ 0 then
        let ibiSec : ℚ := (sub32 nowMs p.C.lastPeakMs : ℚ) / 1000
        if 1/5 < ibiSec ∧ ibiSec < 10 then
          let buf := p.rrBuf.set p.rrIdx (60 / ibiSec)
          let idx := (p.rrIdx + 1) % RR_WIN
          let fill := if p.rrFill < RR_WIN then p.rrFill + 1 else p.rrFill
          { p with rrBuf := buf, rrIdx := idx, rrFill := fill,
                   bpm := robustBpm buf fill }
        else p
      else p
    { p1 with
      C := { p1.C with lastPeakMs := nowMs, lastEnvPeak := p1.C.env },
      lastEventMs := nowMs, prevAbove := above }
  else
    { p with prevAbove := above }

/-- `updateApneaFSM(uint32_t nowMs, bool apneaNow)`: takes the function-local
static `apneaActive` and the published `_stat.apneaActive` flag, returns
their new values and the events delivered to the callback. -/
def updateApneaFSM (nowMs : ℕ) (apneaNow active statFlag : Bool) :
    Bool × Bool × List Event :=
  if apneaNow && !active then
    (true, true, [{ type := EventType.ApneaStart, tsMs := nowMs, durationMs := 0 }])
  else if !apneaNow && active then
    (false, false, [{ type := EventType.ApneaEnd, tsMs := nowMs, durationMs := 0 }])
  else
    (active, statFlag, [])

/-- `updateHypopneaFSM(uint32_t nowMs, bool hypoNow)`: takes the function-local
statics `hypoStartMs` / `hypoActive` and the published `_stat.hypopneaActive`
flag, returns their new values and the delivered events. -/
def updateHypopneaFSM (hypoMinMs nowMs : ℕ) (hypoNow : Bool)
    (startMs : ℕ) (active statFlag : Bool) : ℕ × Bool × Bool × List Event :=
  if hypoNow then
    if !active then
      let st := if startMs = 0 then nowMs else startMs
      if hypoMinMs ≤ sub32 nowMs st then
        (st, true, true,
          [{ type := EventType.HypopneaStart, tsMs := nowMs, durationMs := 0 }])
      else (st, false, statFlag, [])
    else (startMs, active, statFlag, [])
  else
    if active then
      (0, false, false,
        [{ type := EventType.HypopneaEnd, tsMs := nowMs, durationMs := 0 }])
    else (0, false, statFlag, [])

/-- All mutable pipeline state (class data members plus the function-local
statics of the source, see the header comment). -/
structure PipelineState where
  ch1 : ChannelState
  ch2 : ChannelState
  stat : Status
  rrBuf : List ℚ
  rrIdx : ℕ
  rrFill : ℕ
  tele : ℕ → Telemetry
  tlHead : ℕ
  tlTail : ℕ
  burstCh1 : ℕ → ℤ
  burstCh2 : ℕ → ℤ
  burstHead : ℕ
  burstTail : ℕ
  burstFill : ℕ
  burstActive : Bool
  burstPostRemain : ℕ
  prevEnvArt : ℚ
  prevAbove : Bool
  lastEventMs : ℕ
  apneaActive : Bool
  hypoStartMs : ℕ
  hypoActive : Bool

/-- The state of a freshly constructed `BreathPipeline` object (all member
initialisers and zero-initialised statics). -/
def initState : PipelineState where
  ch1 := ChannelState.init
  ch2 := ChannelState.init
  stat := Status.init
  rrBuf := List.replicate RR_WIN 0
  rrIdx := 0
  rrFill := 0
  tele := fun _ => {}
  tlHead := 0
  tlTail := 0
  burstCh1 := fun _ => 0
  burstCh2 := fun _ => 0
  burstHead := 0
  burstTail := 0
  burstFill := 0
  burstActive := false
  burstPostRemain := 0
  prevEnvArt := 0
  prevAbove := false
  lastEventMs := 0
  apneaActive := false
  hypoStartMs := 0
  hypoActive := false

/-- `begin(ads, cfg)` restricted to the modelled mutable state: it zeroes the
interval ring (`memset(_rrBuf, 0, ...)`, `_rrIdx = _rrFill = 0`), the status
(`_stat = {}`), the telemetry cursors (`_tlHead = _tlTail = 0`) and the burst
arming (`_burstActive = false; _burstPostRemain = 0`).  Everything else it
touches (`_ads`, `_cfg`, the derived coefficients `_alphaDC/_alphaEnv/_alphaThr`,
`_intervalUs`, `_nextSampleUs`, `_lsb_mV`, the ADS gain) is configuration or
scheduling, not modelled mutable state.  It does not touch `_ch1`, `_ch2`,
the telemetry/burst buffer contents, `_burstHead/_burstTail/_burstFill`, or
any of the function-local statics. -/
def beginReset (s : PipelineState) : PipelineState :=
  { s with rrBuf := List.replicate RR_WIN 0, rrIdx := 0, rrFill := 0,
           stat := Status.init, tlHead := 0, tlTail := 0,
           burstActive := false, burstPostRemain := 0 }

/-- The telemetry record built by `pushTele` from the published status. -/
def mkTelemetry (tsMs : ℕ) (st : Status) : Telemetry :=
  { tsMs := tsMs, bpm := st.bpm, signalOK := st.signalOK,
    apnea := st.apneaActive, hypopnea := st.hypopneaActive,
    artifact := st.artifact, env := st.envPrimary, thr := st.thresholdPrimary }

/-- `pushTele(uint32_t tsMs)`: advance the head, discarding the oldest unread
record (advancing the tail) when the ring is full. -/
def pushTele (tsMs : ℕ) (s : PipelineState) : PipelineState :=
  let next := (s.tlHead + 1) % TELE_CAP
  let tl := if next = s.tlTail then (s.tlTail + 1) % TELE_CAP else s.tlTail
  { s with
    tele := fun j => if j = s.tlHead then mkTelemetry tsMs s.stat else s.tele j,
    tlHead := next, tlTail := tl }

/-- `popTelemetry(Telemetry& out)`: `none` when the ring is empty, otherwise
the record at the tail together with the advanced state. -/
def popTelemetry (s : PipelineState) : Option (Telemetry × PipelineState) :=
  if s.tlHead = s.tlTail then none
  else some (s.tele s.tlTail, { s with tlTail := (s.tlTail + 1) % TELE_CAP })

/-- Number of records currently held by the telemetry ring. -/
def teleCount (s : PipelineState) : ℕ :=
  (s.tlHead + TELE_CAP - s.tlTail) % TELE_CAP

/-- The records currently held by the telemetry ring, oldest first. -/
def teleList (s : PipelineState) : List Telemetry :=
  (List.range (teleCount s)).map (fun i => s.tele ((s.tlTail + i) % TELE_CAP))

/-- Fold `pushTele` over a list of timestamps. -/
def pushTeleMany (tss : List ℕ) (s : PipelineState) : PipelineState :=
  tss.foldl (fun s t => pushTele t s) s

/-- Repeatedly `popTelemetry` until the ring reports empty (with fuel). -/
def drainTele : ℕ → PipelineState → List Telemetry
  | 0, _ => []
  | fuel + 1, s =>
    match popTelemetry s with
    | none => []
    | some (t, s1) => t :: drainTele fuel s1

/-- `triggerBurst(uint16_t postMs)`. -/
def triggerBurst (postMs : ℕ) (s : PipelineState) : PipelineState :=
  { s with burstActive := true, burstPostRemain := postMs }

/-- `exportBurst(ch1Buf, ch2Buf, maxSamples)`: the returned count and the two
copied sample sequences.  Note the source indexes `(_burstTail + i) % BURST_CAP`
(the compile-time maximum), not modulo the runtime ring capacity used by
`pushBurst`. -/
def exportBurst (s : PipelineState) (maxSamples : ℕ) : ℕ × List ℤ × List ℤ :=
  let cnt := min s.burstFill maxSamples
  (cnt,
   (List.range cnt).map (fun i => s.burstCh1 ((s.burstTail + i) % BURST_CAP)),
   (List.range cnt).map (fun i => s.burstCh2 ((s.burstTail + i) % BURST_CAP)))

/-- The runtime burst ring size request
`(size_t)((burstPreMs + burstPostMs) * (fsProcHz / 1000.0f))`. -/
def burstNeed (cfg : Config) : ℕ :=
  (Int.floor (((cfg.burstPreMs + cfg.burstPostMs : ℕ) : ℚ)
    * ((cfg.fsProcHz : ℚ) / 1000))).toNat

/-- The clamped runtime burst capacity `min(BURST_CAP, max(64, need))`. -/
def burstCap (cfg : Config) : ℕ := min BURST_CAP (max 64 (burstNeed cfg))

/-- `pushBurst(int16_t c0, int16_t c1)`: write at the head, wrap the head (and
on overflow the tail) modulo the runtime capacity.  The source's
`if (_burstFill < cap) _burstFill++; else _burstTail = ...` is expressed as
per-field conditionals. -/
def pushBurst (cfg : Config) (s : PipelineState) (c0 c1 : ℤ) : PipelineState :=
  let cap := burstCap cfg
  { s with
    burstCh1 := fun j => if j = s.burstHead then c0 else s.burstCh1 j,
    burstCh2 := fun j => if j = s.burstHead then c1 else s.burstCh2 j,
    burstHead := (s.burstHead + 1) % cap,
    burstFill := if s.burstFill < cap then s.burstFill + 1 else s.burstFill,
    burstTail := if s.burstFill < cap then s.burstTail else (s.burstTail + 1) % cap }

/-- `roundf`: round half away from zero. -/
def roundAway (q : ℚ) : ℤ :=
  if 0 ≤ q then Int.floor (q + 1/2) else -Int.floor (-q + 1/2)

/-- The C cast `(int16_t)` of an integer value (two's-complement wrap). -/
def toInt16 (z : ℤ) : ℤ := (z + 32768) % 65536 - 32768

/-- `handleBurst(nowMs, mv0, mv1)`: reconstruct counts from millivolts, push
them, then run the post-trigger countdown (`if (_burstPostRemain > stepMs)
_burstPostRemain -= stepMs; else _burstPostRemain = 0; if (_burstPostRemain
== 0) _burstActive = false`, guarded by `_burstActive`, expressed as
per-field conditionals). -/
def handleBurst (cfg : Config) (lsb : ℚ) (s : PipelineState) (mv0 mv1 : ℚ) :
    PipelineState :=
  let c0 := toInt16 (roundAway (mv0 / lsb))
  let c1 := toInt16 (roundAway (mv1 / lsb))
  let s1 := pushBurst cfg s c0 c1
  let stepMs := 1000 / max 1 cfg.fsProcHz
  let rem := if stepMs < s1.burstPostRemain then s1.burstPostRemain - stepMs else 0
  { s1 with
    burstPostRemain := if s1.burstActive then rem else s1.burstPostRemain,
    burstActive := if s1.burstActive then decide (rem ≠ 0) else s1.burstActive }

/-- The primary channel state selected by `cfg.primaryChannel`. -/
def primarySt (cfg : Config) (s : PipelineState) : ChannelState :=
  if cfg.primaryChannel = PrimaryChannel.CH2_A1 then s.ch2 else s.ch1

/-- All observables of one executed tick body: the successor state, the events
delivered to the callback, and the tick's intermediate values (named after the
locals of `tick()`). -/
structure TickOut where
  s : PipelineState
  events : List Event
  nowMs : ℕ
  mv0 : ℚ
  mv1 : ℚ
  artifact : Bool
  thr : ℚ
  env : ℚ
  above : Bool
  hypoNow : Bool
  apneaNow : Bool

/-- The local `const bool useCh2 = (_cfg.primaryChannel == CH2_A1)` of `tick()`. -/
def tickUseCh2 (cfg : Config) : Bool :=
  decide (cfg.primaryChannel = PrimaryChannel.CH2_A1)

/-- The primary channel state after this tick's `processOne` calls (the
reference `P` of `tick()`, just after line 135). -/
def tickP0 (cfg : Config) (aDC aEnv aThr lsb : ℚ) (s : PipelineState)
    (c0 c1 : ℤ) : ChannelState :=
  if tickUseCh2 cfg
  then processOne aDC aEnv aThr cfg.antiRingTaps s.ch2 (countsToMilliVolts lsb c1)
  else processOne aDC aEnv aThr cfg.antiRingTaps s.ch1 (countsToMilliVolts lsb c0)

/-- The primary channel's millivolt sample `mvP` of `tick()`. -/
def tickMvP (cfg : Config) (lsb : ℚ) (c0 c1 : ℤ) : ℚ :=
  if tickUseCh2 cfg then countsToMilliVolts lsb c1 else countsToMilliVolts lsb c0

/-- The tick's `detectArtifact(P, mvP)` call (flag and updated static). -/
def tickArt (cfg : Config) (aDC aEnv aThr lsb : ℚ) (s : PipelineState)
    (c0 c1 : ℤ) : Bool × ℚ :=
  detectArtifact cfg s.prevEnvArt (tickP0 cfg aDC aEnv aThr lsb s c0 c1)
    (tickMvP cfg lsb c0 c1)

/-- The tick's `base = max(P.envBaseline, 1e-6f)`. -/
def tickBase (cfg : Config) (aDC aEnv aThr lsb : ℚ) (s : PipelineState)
    (c0 c1 : ℤ) : ℚ :=
  max (tickP0 cfg aDC aEnv aThr lsb s c0 c1).envBaseline (1/1000000)

/-- The tick's adaptive threshold `thr = thrFactor * base`. -/
def tickThr (cfg : Config) (aDC aEnv aThr lsb : ℚ) (s : PipelineState)
    (c0 c1 : ℤ) : ℚ :=
  cfg.thrFactor * tickBase cfg aDC aEnv aThr lsb s c0 c1

/-- The tick's `above = (env >= thr) && !artifact`. -/
def tickAbove (cfg : Config) (aDC aEnv aThr lsb : ℚ) (s : PipelineState)
    (c0 c1 : ℤ) : Bool :=
  decide (tickThr cfg aDC aEnv aThr lsb s c0 c1
      ≤ (tickP0 cfg aDC aEnv aThr lsb s c0 c1).env)
    && !(tickArt cfg aDC aEnv aThr lsb s c0 c1).1

/-- The peak-detection state after lines 146-147 of `tick()`: the crossing
update `if (above) P.lastCrossMs = nowMs` followed by
`if (!artifact) peakDetectAndRR(P, nowMs)`. -/
def tickPk (cfg : Config) (aDC aEnv aThr lsb : ℚ) (s : PipelineState)
    (nowMs : ℕ) (c0 c1 : ℤ) : PeakState :=
  let P0 := tickP0 cfg aDC aEnv aThr lsb s c0 c1
  let P1 := if tickAbove cfg aDC aEnv aThr lsb s c0 c1
            then { P0 with lastCrossMs := nowMs } else P0
  let pk0 : PeakState :=
    { C := P1, prevAbove := s.prevAbove, lastEventMs := s.lastEventMs,
      rrBuf := s.rrBuf, rrIdx := s.rrIdx, rrFill := s.rrFill, bpm := s.stat.bpm }
  if (tickArt cfg aDC aEnv aThr lsb s c0 c1).1 then pk0
  else peakDetectAndRR cfg nowMs pk0

/-- The tick's `hypoNow = (P.lastEnvPeak < hypopneaFrac * base) && !artifact`
(read after peak detection has possibly updated `lastEnvPeak`). -/
def tickHypoNow (cfg : Config) (aDC aEnv aThr lsb : ℚ) (s : PipelineState)
    (nowMs : ℕ) (c0 c1 : ℤ) : Bool :=
  decide ((tickPk cfg aDC aEnv aThr lsb s nowMs c0 c1).C.lastEnvPeak
      < cfg.hypopneaFrac * tickBase cfg aDC aEnv aThr lsb s c0 c1)
    && !(tickArt cfg aDC aEnv aThr lsb s c0 c1).1

/-- The tick's `apneaNow = (nowMs - P.lastCrossMs) >= apneaMinSec * 1000`. -/
def tickApneaNow (cfg : Config) (aDC aEnv aThr lsb : ℚ) (s : PipelineState)
    (nowMs : ℕ) (c0 c1 : ℤ) : Bool :=
  decide (msOf cfg.apneaMinSec
    ≤ sub32 nowMs (tickPk cfg aDC aEnv aThr lsb s nowMs c0 c1).C.lastCrossMs)

/-- The body of `tick()` after the scheduling guard (lines 130-157): one
executed processing tick.  Inputs are the two raw ADC counts and the value of
`millis()`; the derived members `_alphaDC/_alphaEnv/_alphaThr/_lsb_mV` are
passed explicitly. -/
def tickStep (cfg : Config) (aDC aEnv aThr lsb : ℚ) (s : PipelineState)
    (nowMs : ℕ) (c0 c1 : ℤ) : TickOut :=
  let mv0 := countsToMilliVolts lsb c0
  let mv1 := countsToMilliVolts lsb c1
  let ch1a := processOne aDC aEnv aThr cfg.antiRingTaps s.ch1 mv0
  let ch2a := processOne aDC aEnv aThr cfg.antiRingTaps s.ch2 mv1
  let art := tickArt cfg aDC aEnv aThr lsb s c0 c1
  let base := tickBase cfg aDC aEnv aThr lsb s c0 c1
  let pk1 := tickPk cfg aDC aEnv aThr lsb s nowMs c0 c1
  let hypoNow := tickHypoNow cfg aDC aEnv aThr lsb s nowMs c0 c1
  let hy := updateHypopneaFSM (msOf cfg.hypopneaMinSec) nowMs hypoNow
    s.hypoStartMs s.hypoActive s.stat.hypopneaActive
  let apneaNow := tickApneaNow cfg aDC aEnv aThr lsb s nowMs c0 c1
  let ap := updateApneaFSM nowMs apneaNow s.apneaActive s.stat.apneaActive
  let stat1 : Status :=
    { bpm := pk1.bpm,
      signalOK := decide (sub32 nowMs pk1.C.lastCrossMs < 2000),
      apneaActive := ap.2.1,
      hypopneaActive := hy.2.2.1,
      artifact := art.1,
      envPrimary := (tickP0 cfg aDC aEnv aThr lsb s c0 c1).env,
      envBaselinePrimary := pk1.C.envBaseline,
      thresholdPrimary := tickThr cfg aDC aEnv aThr lsb s c0 c1,
      snrEstimate := if 1/1000000 < base
        then (tickP0 cfg aDC aEnv aThr lsb s c0 c1).env / base else 0 }
  let s1 : PipelineState :=
    { s with
      ch1 := if tickUseCh2 cfg then ch1a else pk1.C,
      ch2 := if tickUseCh2 cfg then pk1.C else ch2a,
      stat := stat1,
      rrBuf := pk1.rrBuf, rrIdx := pk1.rrIdx, rrFill := pk1.rrFill,
      prevEnvArt := art.2,
      prevAbove := pk1.prevAbove, lastEventMs := pk1.lastEventMs,
      apneaActive := ap.1,
      hypoStartMs := hy.1, hypoActive := hy.2.1 }
  let s2 := pushTele nowMs s1
  let s3 := handleBurst cfg lsb s2 mv0 mv1
  { s := s3, events := hy.2.2.2 ++ ap.2.2, nowMs := nowMs, mv0 := mv0, mv1 := mv1,
    artifact := art.1, thr := tickThr cfg aDC aEnv aThr lsb s c0 c1,
    env := (tickP0 cfg aDC aEnv aThr lsb s c0 c1).env,
    above := tickAbove cfg aDC aEnv aThr lsb s c0 c1,
    hypoNow := hypoNow, apneaNow := apneaNow }

/-- One executed tick: successor state and delivered events. -/
def tickBody (cfg : Config) (aDC aEnv aThr lsb : ℚ) (s : PipelineState)
    (nowMs : ℕ) (c0 c1 : ℤ) : PipelineState × List Event :=
  let o := tickStep cfg aDC aEnv aThr lsb s nowMs c0 c1
  (o.s, o.events)

/-- Fold `tickStep` over a list of tick inputs `(nowMs, c0, c1)`: the final
pipeline state after executing those ticks in order. -/
def tickRunS (cfg : Config) (aDC aEnv aThr lsb : ℚ) (s : PipelineState)
    (l : List (ℕ × ℤ × ℤ)) : PipelineState :=
  l.foldl (fun s p => (tickStep cfg aDC aEnv aThr lsb s p.1 p.2.1 p.2.2).s) s

/-- The per-tick observables of a run of executed ticks. -/
def tickTrace (cfg : Config) (aDC aEnv aThr lsb : ℚ) :
    PipelineState → List (ℕ × ℤ × ℤ) → List TickOut
  | _, [] => []
  | s, (now, c0, c1) :: rest =>
    let o := tickStep cfg aDC aEnv aThr lsb s now c0 c1
    o :: tickTrace cfg aDC aEnv aThr lsb o.s rest

/-- The time of the most recent tick in a trace whose `above` flag was set
(last-write-wins over the trace), starting from a given accumulator. -/
def lastAboveTime (l : List TickOut) (acc : Option ℕ) : Option ℕ :=
  l.foldl (fun a o => if o.above then some o.nowMs else a) acc

/-- A run of the apnea FSM alone over a list of `(nowMs, apneaNow)` inputs,
starting from given static/status flags; returns the final flags and all
delivered events in order. -/
def apneaRunAux : Bool → Bool → List (ℕ × Bool) → Bool × Bool × List Event
  | active, statFlag, [] => (active, statFlag, [])
  | active, statFlag, (t, inp) :: rest =>
    let r := updateApneaFSM t inp active statFlag
    let rr := apneaRunAux r.1 r.2.1 rest
    (rr.1, rr.2.1, r.2.2 ++ rr.2.2)

/-- `alphaFromTau(float tauSec, uint32_t fs)`: the EMA smoothing coefficient
`1 - expf(-dt / tau)` with `dt = 1 / max(1, fs)`, and `1` for `tau <= 0`. -/
noncomputable def alphaFromTau (tauSec : ℝ) (fs : ℕ) : ℝ :=
  if tauSec ≤ 0 then 1
  else 1 - Real.exp (-(1 / ((max 1 fs : ℕ) : ℝ)) / tauSec)

/-! ### Concrete scenario states used by closed theorems -/

/-- A state whose hypopnea FSM is Active with a nonzero start timer (used to
exercise artifact ticks). -/
def c1Pre : PipelineState :=
  { initState with hypoActive := true, hypoStartMs := 500,
                   stat := { Status.init with hypopneaActive := true } }

/-- C4 counterexample input: a pipeline state with a nonzero channel envelope,
a nonzero burst-ring fill count, and an Active apnea FSM. -/
def c4Pre : PipelineState :=
  { initState with ch1 := { ChannelState.init with env := 5 },
                   burstFill := 7, apneaActive := true }

/-- Burst-ring scenario: push `k` sample pairs `(v1 i, v2 i)` in order. -/
def pushBurstMany (cfg : Config) (v1 v2 : ℕ → ℤ) (k : ℕ) (s : PipelineState) :
    PipelineState :=
  (List.range k).foldl (fun s i => pushBurst cfg s (v1 i) (v2 i)) s

/-- The burst state after 601 pushes of ch1 values `1..601` from a fresh
pipeline with the default configuration (runtime ring capacity 600). -/
def c2State : PipelineState :=
  pushBurstMany defaultConfig (fun i => (i : ℤ) + 1) (fun _ => 0) 601 initState

/-- The telemetry state after 257 pushes with timestamps `0..256` from a fresh
pipeline. -/
def c3State : PipelineState := pushTeleMany (List.range 257) initState

/-- A peak-detector state one accepted peak away from pushing its first
interval: seeded at 1000 ms, envelope well above the adaptive threshold. -/
def c6Peak : PeakState :=
  { C := { ChannelState.init with env := 1, lastPeakMs := 1000 },
    prevAbove := false, lastEventMs := 0,
    rrBuf := List.replicate RR_WIN 0, rrIdx := 0, rrFill := 0, bpm := 0 }

/-! ### Frame and projection helper lemmas -/

theorem processOne_lastPeakMs (aDC aEnv aThr : ℚ) (taps : ℕ) (C : ChannelState)
    (mv : ℚ) : (processOne aDC aEnv aThr taps C mv).lastPeakMs = C.lastPeakMs := by
  simp only [processOne]
  repeat' split
  all_goals rfl

theorem processOne_lastCrossMs (aDC aEnv aThr : ℚ) (taps : ℕ) (C : ChannelState)
    (mv : ℚ) : (processOne aDC aEnv aThr taps C mv).lastCrossMs = C.lastCrossMs := by
  simp only [processOne]
  repeat' split
  all_goals rfl

theorem peakDetectAndRR_lastCrossMs (cfg : Config) (nowMs : ℕ) (p : PeakState) :
    (peakDetectAndRR cfg nowMs p).C.lastCrossMs = p.C.lastCrossMs := by
  simp only [peakDetectAndRR]
  repeat' split
  all_goals rfl

theorem pushTele_frame (t : ℕ) (s : PipelineState) :
    (pushTele t s).ch1 = s.ch1 ∧ (pushTele t s).ch2 = s.ch2 ∧
    (pushTele t s).stat = s.stat ∧ (pushTele t s).rrBuf = s.rrBuf ∧
    (pushTele t s).rrIdx = s.rrIdx ∧ (pushTele t s).rrFill = s.rrFill ∧
    (pushTele t s).prevEnvArt = s.prevEnvArt ∧
    (pushTele t s).prevAbove = s.prevAbove ∧
    (pushTele t s).lastEventMs = s.lastEventMs ∧
    (pushTele t s).apneaActive = s.apneaActive ∧
    (pushTele t s).hypoStartMs = s.hypoStartMs ∧
    (pushTele t s).hypoActive = s.hypoActive := by
  repeat' apply And.intro
  all_goals rfl

theorem handleBurst_frame (cfg : Config) (lsb : ℚ) (s : PipelineState)
    (mv0 mv1 : ℚ) :
    (handleBurst cfg lsb s mv0 mv1).ch1 = s.ch1 ∧
    (handleBurst cfg lsb s mv0 mv1).ch2 = s.ch2 ∧
    (handleBurst cfg lsb s mv0 mv1).stat = s.stat ∧
    (handleBurst cfg lsb s mv0 mv1).rrBuf = s.rrBuf ∧
    (handleBurst cfg lsb s mv0 mv1).rrIdx = s.rrIdx ∧
    (handleBurst cfg lsb s mv0 mv1).rrFill = s.rrFill ∧
    (handleBurst cfg lsb s mv0 mv1).prevEnvArt = s.prevEnvArt ∧
    (handleBurst cfg lsb s mv0 mv1).prevAbove = s.prevAbove ∧
    (handleBurst cfg lsb s mv0 mv1).lastEventMs = s.lastEventMs ∧
    (handleBurst cfg lsb s mv0 mv1).apneaActive = s.apneaActive ∧
    (handleBurst cfg lsb s mv0 mv1).hypoStartMs = s.hypoStartMs ∧
    (handleBurst cfg lsb s mv0 mv1).hypoActive = s.hypoActive ∧
    (handleBurst cfg lsb s mv0 mv1).tlHead = s.tlHead ∧
    (handleBurst cfg lsb s mv0 mv1).tlTail = s.tlTail ∧
    (handleBurst cfg lsb s mv0 mv1).tele = s.tele := by
  repeat' apply And.intro
  all_goals rfl

/-- The events of a tick are exactly the hypopnea FSM events followed by the
apnea FSM events, each driven by the tick's computed inputs. -/
theorem tickStep_events_eq (cfg : Config) (aDC aEnv aThr lsb : ℚ)
    (s : PipelineState) (nowMs : ℕ) (c0 c1 : ℤ) :
    (tickStep cfg aDC aEnv aThr lsb s nowMs c0 c1).events =
      (updateHypopneaFSM (msOf cfg.hypopneaMinSec) nowMs
          (tickStep cfg aDC aEnv aThr lsb s nowMs c0 c1).hypoNow
          s.hypoStartMs s.hypoActive s.stat.hypopneaActive).2.2.2 ++
      (updateApneaFSM nowMs
          (tickStep cfg aDC aEnv aThr lsb s nowMs c0 c1).apneaNow
          s.apneaActive s.stat.apneaActive).2.2 := rfl

theorem tickStep_artifact_eq (cfg : Config) (aDC aEnv aThr lsb : ℚ)
    (s : PipelineState) (nowMs : ℕ) (c0 c1 : ℤ) :
    (tickStep cfg aDC aEnv aThr lsb s nowMs c0 c1).artifact =
      (tickArt cfg aDC aEnv aThr lsb s c0 c1).1 := rfl

theorem tickStep_above_eq (cfg : Config) (aDC aEnv aThr lsb : ℚ)
    (s : PipelineState) (nowMs : ℕ) (c0 c1 : ℤ) :
    (tickStep cfg aDC aEnv aThr lsb s nowMs c0 c1).above =
      tickAbove cfg aDC aEnv aThr lsb s c0 c1 := rfl

theorem tickStep_hypoNow_eq (cfg : Config) (aDC aEnv aThr lsb : ℚ)
    (s : PipelineState) (nowMs : ℕ) (c0 c1 : ℤ) :
    (tickStep cfg aDC aEnv aThr lsb s nowMs c0 c1).hypoNow =
      tickHypoNow cfg aDC aEnv aThr lsb s nowMs c0 c1 := rfl

theorem tickStep_apneaNow_eq (cfg : Config) (aDC aEnv aThr lsb : ℚ)
    (s : PipelineState) (nowMs : ℕ) (c0 c1 : ℤ) :
    (tickStep cfg aDC aEnv aThr lsb s nowMs c0 c1).apneaNow =
      tickApneaNow cfg aDC aEnv aThr lsb s nowMs c0 c1 := rfl

theorem tickStep_nowMs_eq (cfg : Config) (aDC aEnv aThr lsb : ℚ)
    (s : PipelineState) (nowMs : ℕ) (c0 c1 : ℤ) :
    (tickStep cfg aDC aEnv aThr lsb s nowMs c0 c1).nowMs = nowMs := rfl

theorem tickStep_s_ch1 (cfg : Config) (aDC aEnv aThr lsb : ℚ)
    (s : PipelineState) (nowMs : ℕ) (c0 c1 : ℤ) :
    (tickStep cfg aDC aEnv aThr lsb s nowMs c0 c1).s.ch1 =
      if tickUseCh2 cfg
      then processOne aDC aEnv aThr cfg.antiRingTaps s.ch1 (countsToMilliVolts lsb c0)
      else (tickPk cfg aDC aEnv aThr lsb s nowMs c0 c1).C := rfl

theorem tickStep_s_ch2 (cfg : Config) (aDC aEnv aThr lsb : ℚ)
    (s : PipelineState) (nowMs : ℕ) (c0 c1 : ℤ) :
    (tickStep cfg aDC aEnv aThr lsb s nowMs c0 c1).s.ch2 =
      if tickUseCh2 cfg
      then (tickPk cfg aDC aEnv aThr lsb s nowMs c0 c1).C
      else processOne aDC aEnv aThr cfg.antiRingTaps s.ch2 (countsToMilliVolts lsb c1) := rfl

theorem tickStep_s_rr (cfg : Config) (aDC aEnv aThr lsb : ℚ)
    (s : PipelineState) (nowMs : ℕ) (c0 c1 : ℤ) :
    (tickStep cfg aDC aEnv aThr lsb s nowMs c0 c1).s.rrBuf =
      (tickPk cfg aDC aEnv aThr lsb s nowMs c0 c1).rrBuf ∧
    (tickStep cfg aDC aEnv aThr lsb s nowMs c0 c1).s.rrIdx =
      (tickPk cfg aDC aEnv aThr lsb s nowMs c0 c1).rrIdx ∧
    (tickStep cfg aDC aEnv aThr lsb s nowMs c0 c1).s.rrFill =
      (tickPk cfg aDC aEnv aThr lsb s nowMs c0 c1).rrFill ∧
    (tickStep cfg aDC aEnv aThr lsb s nowMs c0 c1).s.stat.bpm =
      (tickPk cfg aDC aEnv aThr lsb s nowMs c0 c1).bpm ∧
    (tickStep cfg aDC aEnv aThr lsb s nowMs c0 c1).s.prevAbove =
      (tickPk cfg aDC aEnv aThr lsb s nowMs c0 c1).prevAbove ∧
    (tickStep cfg aDC aEnv aThr lsb s nowMs c0 c1).s.lastEventMs =
      (tickPk cfg aDC aEnv aThr lsb s nowMs c0 c1).lastEventMs :=
  ⟨rfl, rfl, rfl, rfl, rfl, rfl⟩

theorem tickStep_s_hypo (cfg : Config) (aDC aEnv aThr lsb : ℚ)
    (s : PipelineState) (nowMs : ℕ) (c0 c1 : ℤ) :
    (tickStep cfg aDC aEnv aThr lsb s nowMs c0 c1).s.hypoStartMs =
      (updateHypopneaFSM (msOf cfg.hypopneaMinSec) nowMs
        (tickHypoNow cfg aDC aEnv aThr lsb s nowMs c0 c1)
        s.hypoStartMs s.hypoActive s.stat.hypopneaActive).1 ∧
    (tickStep cfg aDC aEnv aThr lsb s nowMs c0 c1).s.hypoActive =
      (updateHypopneaFSM (msOf cfg.hypopneaMinSec) nowMs
        (tickHypoNow cfg aDC aEnv aThr lsb s nowMs c0 c1)
        s.hypoStartMs s.hypoActive s.stat.hypopneaActive).2.1 ∧
    (tickStep cfg aDC aEnv aThr lsb s nowMs c0 c1).s.stat.hypopneaActive =
      (updateHypopneaFSM (msOf cfg.hypopneaMinSec) nowMs
        (tickHypoNow cfg aDC aEnv aThr lsb s nowMs c0 c1)
        s.hypoStartMs s.hypoActive s.stat.hypopneaActive).2.2.1 :=
  ⟨rfl, rfl, rfl⟩

theorem tickStep_s_apnea (cfg : Config) (aDC aEnv aThr lsb : ℚ)
    (s : PipelineState) (nowMs : ℕ) (c0 c1 : ℤ) :
    (tickStep cfg aDC aEnv aThr lsb s nowMs c0 c1).s.apneaActive =
      (updateApneaFSM nowMs (tickApneaNow cfg aDC aEnv aThr lsb s nowMs c0 c1)
        s.apneaActive s.stat.apneaActive).1 ∧
    (tickStep cfg aDC aEnv aThr lsb s nowMs c0 c1).s.stat.apneaActive =
      (updateApneaFSM nowMs (tickApneaNow cfg aDC aEnv aThr lsb s nowMs c0 c1)
        s.apneaActive s.stat.apneaActive).2.1 :=
  ⟨rfl, rfl⟩

theorem tickStep_s_signalOK (cfg : Config) (aDC aEnv aThr lsb : ℚ)
    (s : PipelineState) (nowMs : ℕ) (c0 c1 : ℤ) :
    (tickStep cfg aDC aEnv aThr lsb s nowMs c0 c1).s.stat.signalOK =
      decide (sub32 nowMs
        (tickPk cfg aDC aEnv aThr lsb s nowMs c0 c1).C.lastCrossMs < 2000) := rfl

/-- The primary channel state after the tick is the peak-detection output. -/
theorem tickStep_primary (cfg : Config) (aDC aEnv aThr lsb : ℚ)
    (s : PipelineState) (nowMs : ℕ) (c0 c1 : ℤ) :
    primarySt cfg (tickStep cfg aDC aEnv aThr lsb s nowMs c0 c1).s =
      (tickPk cfg aDC aEnv aThr lsb s nowMs c0 c1).C := by
  by_cases hc : cfg.primaryChannel = PrimaryChannel.CH2_A1 <;>
    simp [primarySt, hc, tickStep_s_ch2, tickStep_s_ch1, tickUseCh2]

/-- lastCrossMs after the tick: stamped with `nowMs` on an above tick,
otherwise carried over from before the tick. -/
theorem tickStep_lastCross (cfg : Config) (aDC aEnv aThr lsb : ℚ)
    (s : PipelineState) (nowMs : ℕ) (c0 c1 : ℤ) :
    (tickPk cfg aDC aEnv aThr lsb s nowMs c0 c1).C.lastCrossMs =
      if tickAbove cfg aDC aEnv aThr lsb s c0 c1 = true then nowMs
      else (primarySt cfg s).lastCrossMs := by
  have hP0 : (tickP0 cfg aDC aEnv aThr lsb s c0 c1).lastCrossMs =
      (primarySt cfg s).lastCrossMs := by
    rw [tickP0, primarySt, tickUseCh2]
    by_cases hc : cfg.primaryChannel = PrimaryChannel.CH2_A1 <;>
      simp [hc, processOne_lastCrossMs]
  rw [tickPk]
  cases hart : (tickArt cfg aDC aEnv aThr lsb s c0 c1).1 with
  | true =>
    have hab : tickAbove cfg aDC aEnv aThr lsb s c0 c1 = false := by
      rw [tickAbove, hart]
      simp
    simp only [hart, if_true, hab]
    simp [hP0]
  | false =>
    simp only [hart, if_false, Bool.false_eq_true]
    rw [peakDetectAndRR_lastCrossMs]
    cases hab : tickAbove cfg aDC aEnv aThr lsb s c0 c1 <;> simp [hab, hP0]

/-! ### Case lemmas for the two FSM step functions -/

/-- `updateApneaFSM` case analysis: ApneaStart exactly on Inactive-to-Active,
ApneaEnd exactly on Active-to-Inactive, nothing otherwise. -/
theorem updateApneaFSM_cases (nowMs : ℕ) (apneaNow active statFlag : Bool) :
    updateApneaFSM nowMs apneaNow active statFlag =
      if apneaNow && !active then
        (true, true, [{ type := EventType.ApneaStart, tsMs := nowMs, durationMs := 0 }])
      else if !apneaNow && active then
        (false, false, [{ type := EventType.ApneaEnd, tsMs := nowMs, durationMs := 0 }])
      else (active, statFlag, []) := rfl

/-- `updateHypopneaFSM` with a false condition: the start timer is zeroed and
an Active FSM deactivates, emitting HypopneaEnd. -/
theorem updateHypopneaFSM_false (hypoMinMs nowMs : ℕ) (startMs : ℕ)
    (active statFlag : Bool) :
    updateHypopneaFSM hypoMinMs nowMs false startMs active statFlag =
      (0, false, (if active then false else statFlag),
        if active then [{ type := EventType.HypopneaEnd, tsMs := nowMs, durationMs := 0 }]
        else []) := by
  cases active <;> simp [updateHypopneaFSM]

/-- Every event emitted by the apnea FSM has an apnea type and zero duration. -/
theorem updateApneaFSM_events (nowMs : ℕ) (apneaNow active statFlag : Bool) :
    ∀ e ∈ (updateApneaFSM nowMs apneaNow active statFlag).2.2,
      (e.type = EventType.ApneaStart ∨ e.type = EventType.ApneaEnd) ∧
      e.tsMs = nowMs ∧ e.durationMs = 0 := by
  cases apneaNow <;> cases active <;> simp [updateApneaFSM]

/-- Every event emitted by the hypopnea FSM has a hypopnea type and zero
duration. -/
theorem updateHypopneaFSM_events (hypoMinMs nowMs : ℕ) (hypoNow : Bool)
    (startMs : ℕ) (active statFlag : Bool) :
    ∀ e ∈ (updateHypopneaFSM hypoMinMs nowMs hypoNow startMs active statFlag).2.2.2,
      (e.type = EventType.HypopneaStart ∨ e.type = EventType.HypopneaEnd) ∧
      e.tsMs = nowMs ∧ e.durationMs = 0 := by
  cases hypoNow <;> cases active <;>
    simp only [updateHypopneaFSM, Bool.not_false, Bool.not_true, if_true, if_false] <;>
    repeat' split
  all_goals simp

/-! ### Artifact-tick helper -/

theorem tickAbove_of_artifact (cfg : Config) (aDC aEnv aThr lsb : ℚ)
    (s : PipelineState) (c0 c1 : ℤ)
    (hart : (tickArt cfg aDC aEnv aThr lsb s c0 c1).1 = true) :
    tickAbove cfg aDC aEnv aThr lsb s c0 c1 = false := by
  rw [tickAbove, hart]
  simp

theorem tickHypoNow_of_artifact (cfg : Config) (aDC aEnv aThr lsb : ℚ)
    (s : PipelineState) (nowMs : ℕ) (c0 c1 : ℤ)
    (hart : (tickArt cfg aDC aEnv aThr lsb s c0 c1).1 = true) :
    tickHypoNow cfg aDC aEnv aThr lsb s nowMs c0 c1 = false := by
  rw [tickHypoNow, hart]
  simp

/-- On an artifact tick, peak detection is skipped and the crossing timestamp
is not updated: the peak state is the pre-tick peak state with the primary
channel merely conditioned by `processOne`. -/
theorem tickPk_of_artifact (cfg : Config) (aDC aEnv aThr lsb : ℚ)
    (s : PipelineState) (nowMs : ℕ) (c0 c1 : ℤ)
    (hart : (tickArt cfg aDC aEnv aThr lsb s c0 c1).1 = true) :
    tickPk cfg aDC aEnv aThr lsb s nowMs c0 c1 =
      { C := tickP0 cfg aDC aEnv aThr lsb s c0 c1,
        prevAbove := s.prevAbove, lastEventMs := s.lastEventMs,
        rrBuf := s.rrBuf, rrIdx := s.rrIdx, rrFill := s.rrFill,
        bpm := s.stat.bpm } := by
  rw [tickPk]
  simp only [hart, if_true, tickAbove_of_artifact cfg aDC aEnv aThr lsb s c0 c1 hart]
  simp

/-! ### C1: hypopnea FSM on artifact ticks -/

/-- C1 counterexample: on a concrete artifact tick (primary channel pinned at
the +256 mV rail) with the hypopnea FSM Active and a nonzero start timer, the
tick RESETS the start timer to zero and emits HypopneaEnd — refuting the claim
that an artifact tick leaves the hypopnea timer and state unchanged and never
causes a HypopneaEnd transition. -/
theorem c1_counterexample :
    (tickStep defaultConfig 0 0 0 (1/8) c1Pre 5000 0 2048).artifact = true ∧
    c1Pre.hypoStartMs = 500 ∧
    (tickStep defaultConfig 0 0 0 (1/8) c1Pre 5000 0 2048).s.hypoStartMs = 0 ∧
    { type := EventType.HypopneaEnd, tsMs := 5000, durationMs := 0 } ∈
      (tickStep defaultConfig 0 0 0 (1/8) c1Pre 5000 0 2048).events := by
  have hart : (tickArt defaultConfig 0 0 0 (1/8) c1Pre 0 2048).1 = true := by
    with_unfolding_all decide
  have hhn : tickHypoNow defaultConfig 0 0 0 (1/8) c1Pre 5000 0 2048 = false :=
    tickHypoNow_of_artifact _ _ _ _ _ _ _ _ _ hart
  refine ⟨by rw [tickStep_artifact_eq]; exact hart, rfl, ?_, ?_⟩
  · rw [(tickStep_s_hypo defaultConfig 0 0 0 (1/8) c1Pre 5000 0 2048).1, hhn,
      updateHypopneaFSM_false]
  · rw [tickStep_events_eq, tickStep_hypoNow_eq, hhn, updateHypopneaFSM_false]
    have : c1Pre.hypoActive = true := rfl
    rw [this]
    simp

/-- C1 (amended): on every tick whose artifact flag is set the hypopnea
condition is forced false, so the tick never advances the hypopnea timer
toward HypopneaStart (no HypopneaStart can be emitted), but — contrary to the
original claim — it RESETS the accumulated start timer to zero and, if the
FSM was Active, transitions it to Inactive emitting exactly one HypopneaEnd;
if the FSM was Inactive no hypopnea event is delivered. -/
theorem c1_amended (cfg : Config) (aDC aEnv aThr lsb : ℚ) (s : PipelineState)
    (nowMs : ℕ) (c0 c1 : ℤ)
    (h : (tickStep cfg aDC aEnv aThr lsb s nowMs c0 c1).artifact = true) :
    (tickStep cfg aDC aEnv aThr lsb s nowMs c0 c1).hypoNow = false ∧
    (tickStep cfg aDC aEnv aThr lsb s nowMs c0 c1).s.hypoStartMs = 0 ∧
    (tickStep cfg aDC aEnv aThr lsb s nowMs c0 c1).s.hypoActive = false ∧
    (∀ e ∈ (tickStep cfg aDC aEnv aThr lsb s nowMs c0 c1).events,
      e.type ≠ EventType.HypopneaStart) ∧
    (s.hypoActive = true →
      { type := EventType.HypopneaEnd, tsMs := nowMs, durationMs := 0 } ∈
        (tickStep cfg aDC aEnv aThr lsb s nowMs c0 c1).events) ∧
    (s.hypoActive = false →
      ∀ e ∈ (tickStep cfg aDC aEnv aThr lsb s nowMs c0 c1).events,
        e.type ≠ EventType.HypopneaEnd) := by
  rw [tickStep_artifact_eq] at h
  have hhn : tickHypoNow cfg aDC aEnv aThr lsb s nowMs c0 c1 = false :=
    tickHypoNow_of_artifact _ _ _ _ _ _ _ _ _ h
  have hev := tickStep_events_eq cfg aDC aEnv aThr lsb s nowMs c0 c1
  rw [tickStep_hypoNow_eq, hhn, updateHypopneaFSM_false] at hev
  refine ⟨by rw [tickStep_hypoNow_eq]; exact hhn, ?_, ?_, ?_, ?_, ?_⟩
  · rw [(tickStep_s_hypo cfg aDC aEnv aThr lsb s nowMs c0 c1).1, hhn,
      updateHypopneaFSM_false]
  · rw [(tickStep_s_hypo cfg aDC aEnv aThr lsb s nowMs c0 c1).2.1, hhn,
      updateHypopneaFSM_false]
  · intro e he
    rw [hev] at he
    rcases List.mem_append.1 he with h1 | h2
    · cases ha : s.hypoActive <;> rw [ha] at h1 <;> simp at h1
      rw [h1]
      simp
    · rcases (updateApneaFSM_events _ _ _ _ e h2).1 with h | h <;> simp [h]
  · intro ha
    rw [hev, ha]
    simp
  · intro ha e he
    rw [hev, ha] at he
    simp at he
    rcases (updateApneaFSM_events _ _ _ _ e he).1 with h | h <;> simp [h]

/-- Witness for C1 (amended) at the concrete artifact tick of `c1Pre`. -/
theorem c1_witness :
    (tickStep defaultConfig 0 0 0 (1/8) c1Pre 5001 0 2048).artifact = true ∧
    ((tickStep defaultConfig 0 0 0 (1/8) c1Pre 5001 0 2048).hypoNow = false ∧
     (tickStep defaultConfig 0 0 0 (1/8) c1Pre 5001 0 2048).s.hypoStartMs = 0 ∧
     (tickStep defaultConfig 0 0 0 (1/8) c1Pre 5001 0 2048).s.hypoActive = false ∧
     (∀ e ∈ (tickStep defaultConfig 0 0 0 (1/8) c1Pre 5001 0 2048).events,
       e.type ≠ EventType.HypopneaStart) ∧
     (c1Pre.hypoActive = true →
       { type := EventType.HypopneaEnd, tsMs := 5001, durationMs := 0 } ∈
         (tickStep defaultConfig 0 0 0 (1/8) c1Pre 5001 0 2048).events) ∧
     (c1Pre.hypoActive = false →
       ∀ e ∈ (tickStep defaultConfig 0 0 0 (1/8) c1Pre 5001 0 2048).events,
         e.type ≠ EventType.HypopneaEnd)) :=
  have h : (tickStep defaultConfig 0 0 0 (1/8) c1Pre 5001 0 2048).artifact = true := by
    rw [tickStep_artifact_eq]
    with_unfolding_all decide
  ⟨h, c1_amended defaultConfig 0 0 0 (1/8) c1Pre 5001 0 2048 h⟩

/-! ### C7: artifact ticks suppress peak detection but not conditioning -/

theorem tickP0_lastPeakMs (cfg : Config) (aDC aEnv aThr lsb : ℚ)
    (s : PipelineState) (c0 c1 : ℤ) :
    (tickP0 cfg aDC aEnv aThr lsb s c0 c1).lastPeakMs =
      (primarySt cfg s).lastPeakMs := by
  rw [tickP0, primarySt, tickUseCh2]
  by_cases hc : cfg.primaryChannel = PrimaryChannel.CH2_A1 <;>
    simp [hc, processOne_lastPeakMs]

theorem tickP0_lastCrossMs (cfg : Config) (aDC aEnv aThr lsb : ℚ)
    (s : PipelineState) (c0 c1 : ℤ) :
    (tickP0 cfg aDC aEnv aThr lsb s c0 c1).lastCrossMs =
      (primarySt cfg s).lastCrossMs := by
  rw [tickP0, primarySt, tickUseCh2]
  by_cases hc : cfg.primaryChannel = PrimaryChannel.CH2_A1 <;>
    simp [hc, processOne_lastCrossMs]

/-- C7: on every tick whose artifact flag is set, peak detection is not run —
the primary channel's last-peak timestamp, the apnea-recovery crossing
timestamp, the interval ring, the published rate, and the peak-detector
statics are all unchanged by the tick — while both channels' conditioning
state (DC baseline, moving-average ring, envelope, envelope-peak baseline)
is still updated from this tick's samples by exactly the same unconditional
`processOne` as on a non-artifact tick. -/
theorem c7_artifact_tick (cfg : Config) (aDC aEnv aThr lsb : ℚ)
    (s : PipelineState) (nowMs : ℕ) (c0 c1 : ℤ)
    (h : (tickStep cfg aDC aEnv aThr lsb s nowMs c0 c1).artifact = true) :
    (tickStep cfg aDC aEnv aThr lsb s nowMs c0 c1).s.ch1 =
      processOne aDC aEnv aThr cfg.antiRingTaps s.ch1 (countsToMilliVolts lsb c0) ∧
    (tickStep cfg aDC aEnv aThr lsb s nowMs c0 c1).s.ch2 =
      processOne aDC aEnv aThr cfg.antiRingTaps s.ch2 (countsToMilliVolts lsb c1) ∧
    (primarySt cfg (tickStep cfg aDC aEnv aThr lsb s nowMs c0 c1).s).lastPeakMs =
      (primarySt cfg s).lastPeakMs ∧
    (primarySt cfg (tickStep cfg aDC aEnv aThr lsb s nowMs c0 c1).s).lastCrossMs =
      (primarySt cfg s).lastCrossMs ∧
    (tickStep cfg aDC aEnv aThr lsb s nowMs c0 c1).s.rrBuf = s.rrBuf ∧
    (tickStep cfg aDC aEnv aThr lsb s nowMs c0 c1).s.rrIdx = s.rrIdx ∧
    (tickStep cfg aDC aEnv aThr lsb s nowMs c0 c1).s.rrFill = s.rrFill ∧
    (tickStep cfg aDC aEnv aThr lsb s nowMs c0 c1).s.stat.bpm = s.stat.bpm ∧
    (tickStep cfg aDC aEnv aThr lsb s nowMs c0 c1).s.prevAbove = s.prevAbove ∧
    (tickStep cfg aDC aEnv aThr lsb s nowMs c0 c1).s.lastEventMs = s.lastEventMs := by
  rw [tickStep_artifact_eq] at h
  have hpk := tickPk_of_artifact cfg aDC aEnv aThr lsb s nowMs c0 c1 h
  have hrr := tickStep_s_rr cfg aDC aEnv aThr lsb s nowMs c0 c1
  refine ⟨?_, ?_, ?_, ?_, ?_, ?_, ?_, ?_, ?_, ?_⟩
  · rw [tickStep_s_ch1, hpk]
    rw [tickP0]
    cases hu : tickUseCh2 cfg <;> simp [hu]
  · rw [tickStep_s_ch2, hpk]
    rw [tickP0]
    cases hu : tickUseCh2 cfg <;> simp [hu]
  · rw [tickStep_primary, hpk]
    exact tickP0_lastPeakMs cfg aDC aEnv aThr lsb s c0 c1
  · rw [tickStep_primary, hpk]
    exact tickP0_lastCrossMs cfg aDC aEnv aThr lsb s c0 c1
  · rw [hrr.1, hpk]
  · rw [hrr.2.1, hpk]
  · rw [hrr.2.2.1, hpk]
  · rw [hrr.2.2.2.1, hpk]
  · rw [hrr.2.2.2.2.1, hpk]
  · rw [hrr.2.2.2.2.2, hpk]

/-- Witness for C7 at a concrete artifact tick (rail-pinned primary sample). -/
theorem c7_witness :
    (tickStep defaultConfig 0 0 0 (1/8) c1Pre 5002 0 2048).artifact = true ∧
    ((tickStep defaultConfig 0 0 0 (1/8) c1Pre 5002 0 2048).s.ch1 =
      processOne 0 0 0 defaultConfig.antiRingTaps c1Pre.ch1 (countsToMilliVolts (1/8) 0) ∧
     (tickStep defaultConfig 0 0 0 (1/8) c1Pre 5002 0 2048).s.ch2 =
      processOne 0 0 0 defaultConfig.antiRingTaps c1Pre.ch2 (countsToMilliVolts (1/8) 2048) ∧
     (primarySt defaultConfig (tickStep defaultConfig 0 0 0 (1/8) c1Pre 5002 0 2048).s).lastPeakMs =
      (primarySt defaultConfig c1Pre).lastPeakMs ∧
     (primarySt defaultConfig (tickStep defaultConfig 0 0 0 (1/8) c1Pre 5002 0 2048).s).lastCrossMs =
      (primarySt defaultConfig c1Pre).lastCrossMs ∧
     (tickStep defaultConfig 0 0 0 (1/8) c1Pre 5002 0 2048).s.rrBuf = c1Pre.rrBuf ∧
     (tickStep defaultConfig 0 0 0 (1/8) c1Pre 5002 0 2048).s.rrIdx = c1Pre.rrIdx ∧
     (tickStep defaultConfig 0 0 0 (1/8) c1Pre 5002 0 2048).s.rrFill = c1Pre.rrFill ∧
     (tickStep defaultConfig 0 0 0 (1/8) c1Pre 5002 0 2048).s.stat.bpm = c1Pre.stat.bpm ∧
     (tickStep defaultConfig 0 0 0 (1/8) c1Pre 5002 0 2048).s.prevAbove = c1Pre.prevAbove ∧
     (tickStep defaultConfig 0 0 0 (1/8) c1Pre 5002 0 2048).s.lastEventMs = c1Pre.lastEventMs) :=
  have h : (tickStep defaultConfig 0 0 0 (1/8) c1Pre 5002 0 2048).artifact = true := by
    rw [tickStep_artifact_eq]
    with_unfolding_all decide
  ⟨h, c7_artifact_tick defaultConfig 0 0 0 (1/8) c1Pre 5002 0 2048 h⟩

/-! ### C9: every delivered event has an FSM type and zero duration -/

/-- C9: every event a tick delivers to the registered callback has type
ApneaStart, ApneaEnd, HypopneaStart or HypopneaEnd — never ArtifactDetected,
even on ticks whose artifact flag is set — and carries durationMs = 0 (and is
stamped with the tick's `millis()` time). -/
theorem c9_event_types (cfg : Config) (aDC aEnv aThr lsb : ℚ)
    (s : PipelineState) (nowMs : ℕ) (c0 c1 : ℤ) :
    ∀ e ∈ (tickStep cfg aDC aEnv aThr lsb s nowMs c0 c1).events,
      e.type ≠ EventType.ArtifactDetected ∧
      (e.type = EventType.ApneaStart ∨ e.type = EventType.ApneaEnd ∨
       e.type = EventType.HypopneaStart ∨ e.type = EventType.HypopneaEnd) ∧
      e.durationMs = 0 := by
  intro e he
  rw [tickStep_events_eq] at he
  rcases List.mem_append.1 he with h1 | h2
  · rcases updateHypopneaFSM_events _ _ _ _ _ _ e h1 with ⟨ht, _, hd⟩
    rcases ht with h | h <;> exact ⟨by simp [h], by simp [h], hd⟩
  · rcases updateApneaFSM_events _ _ _ _ e h2 with ⟨ht, _, hd⟩
    rcases ht with h | h <;> exact ⟨by simp [h], by simp [h], hd⟩

/-- Witness for C9 at a concrete tick that delivers a HypopneaEnd event. -/
theorem c9_witness :
    ({ type := EventType.HypopneaEnd, tsMs := 5003, durationMs := 0 } ∈
      (tickStep defaultConfig 0 0 0 (1/8) c1Pre 5003 0 2048).events) ∧
    (Event.mk EventType.HypopneaEnd 5003 0).type ≠ EventType.ArtifactDetected ∧
    ((Event.mk EventType.HypopneaEnd 5003 0).type = EventType.ApneaStart ∨
     (Event.mk EventType.HypopneaEnd 5003 0).type = EventType.ApneaEnd ∨
     (Event.mk EventType.HypopneaEnd 5003 0).type = EventType.HypopneaStart ∨
     (Event.mk EventType.HypopneaEnd 5003 0).type = EventType.HypopneaEnd) ∧
    (Event.mk EventType.HypopneaEnd 5003 0).durationMs = 0 :=
  have hart : (tickArt defaultConfig 0 0 0 (1/8) c1Pre 0 2048).1 = true := by
    with_unfolding_all decide
  have hmem : { type := EventType.HypopneaEnd, tsMs := 5003, durationMs := 0 } ∈
      (tickStep defaultConfig 0 0 0 (1/8) c1Pre 5003 0 2048).events := by
    rw [tickStep_events_eq, tickStep_hypoNow_eq,
      tickHypoNow_of_artifact _ _ _ _ _ _ _ _ _ hart, updateHypopneaFSM_false]
    have : c1Pre.hypoActive = true := rfl
    rw [this]
    simp
  have hc := c9_event_types defaultConfig 0 0 0 (1/8) c1Pre 5003 0 2048 _ hmem
  ⟨hmem, hc.1, hc.2.1, hc.2.2⟩

/-! ### C10: the signalOK flag -/

theorem lastAboveTime_some (l : List TickOut) (a : ℕ) :
    lastAboveTime l (some a) = some ((lastAboveTime l none).getD a) := by
  induction l generalizing a with
  | nil => rfl
  | cons o t ih =>
    cases ho : o.above <;> simp only [lastAboveTime, List.foldl_cons, ho,
      if_true, if_false, Bool.false_eq_true]
    · exact ih a
    · rw [show List.foldl (fun a o => if o.above = true then some o.nowMs else a)
        (some o.nowMs) t = lastAboveTime t (some o.nowMs) from rfl, ih o.nowMs]
      simp

/-- Over a run of executed ticks, the primary channel's `lastCrossMs` is the
time of the most recent tick whose `above` flag was set, or its pre-run value
when no such tick occurred. -/
theorem tickRunS_lastCross (cfg : Config) (aDC aEnv aThr lsb : ℚ) :
    ∀ (l : List (ℕ × ℤ × ℤ)) (s : PipelineState),
    (primarySt cfg (tickRunS cfg aDC aEnv aThr lsb s l)).lastCrossMs =
      (lastAboveTime (tickTrace cfg aDC aEnv aThr lsb s l) none).getD
        ((primarySt cfg s).lastCrossMs) := by
  intro l
  induction l with
  | nil => intro s; rfl
  | cons x t ih =>
    intro s
    obtain ⟨now, c0, c1⟩ := x
    have hstep : tickRunS cfg aDC aEnv aThr lsb s ((now, c0, c1) :: t) =
        tickRunS cfg aDC aEnv aThr lsb
          (tickStep cfg aDC aEnv aThr lsb s now c0 c1).s t := rfl
    have htr : tickTrace cfg aDC aEnv aThr lsb s ((now, c0, c1) :: t) =
        tickStep cfg aDC aEnv aThr lsb s now c0 c1 ::
          tickTrace cfg aDC aEnv aThr lsb
            (tickStep cfg aDC aEnv aThr lsb s now c0 c1).s t := rfl
    rw [hstep, htr, ih]
    have hlc : (primarySt cfg (tickStep cfg aDC aEnv aThr lsb s now c0 c1).s).lastCrossMs =
        if (tickStep cfg aDC aEnv aThr lsb s now c0 c1).above = true then now
        else (primarySt cfg s).lastCrossMs := by
      rw [tickStep_primary, tickStep_lastCross, tickStep_above_eq]
    cases ha : (tickStep cfg aDC aEnv aThr lsb s now c0 c1).above <;>
      rw [ha] at hlc <;>
      simp only [if_true, if_false, Bool.false_eq_true] at hlc <;>
      simp only [lastAboveTime, List.foldl_cons, ha, if_true, if_false,
        Bool.false_eq_true] <;>
      rw [hlc]
    have hnw : (tickStep cfg aDC aEnv aThr lsb s now c0 c1).nowMs = now := rfl
    rw [hnw, show List.foldl (fun a o => if o.above = true then some o.nowMs else a)
      (some now) (tickTrace cfg aDC aEnv aThr lsb
        (tickStep cfg aDC aEnv aThr lsb s now c0 c1).s t) =
      lastAboveTime (tickTrace cfg aDC aEnv aThr lsb
        (tickStep cfg aDC aEnv aThr lsb s now c0 c1).s t) (some now) from rfl,
      lastAboveTime_some]
    rfl

/-- C10 counterexample: from a freshly re-initialised pipeline, a single
executed tick at millis() = 100 with zero samples has no above-threshold
crossing at all (the trace contains no tick with the above flag set), yet the
published signalOK flag is true — refuting the claim that signalOK is true
only when fewer than 2000 ms have elapsed since an actual above-threshold,
artifact-free tick. -/
theorem c10_counterexample :
    lastAboveTime (tickTrace defaultConfig 0 0 0 (1/8) (beginReset initState)
      [(100, 0, 0)]) none = none ∧
    (tickRunS defaultConfig 0 0 0 (1/8) (beginReset initState)
      [(100, 0, 0)]).stat.signalOK = true := by
  have hab : (tickStep defaultConfig 0 0 0 (1/8) (beginReset initState) 100 0 0).above
      = false := by
    rw [tickStep_above_eq]
    with_unfolding_all decide
  constructor
  · have htr : tickTrace defaultConfig 0 0 0 (1/8) (beginReset initState)
        [(100, 0, 0)] =
        [tickStep defaultConfig 0 0 0 (1/8) (beginReset initState) 100 0 0] := rfl
    rw [htr, lastAboveTime, List.foldl_cons, hab]
    simp
  · show (tickStep defaultConfig 0 0 0 (1/8) (beginReset initState) 100 0 0).s.stat.signalOK
      = true
    rw [tickStep_s_signalOK]
    with_unfolding_all decide

/-- C10 (amended): after every executed tick, signalOK is true iff strictly
fewer than 2000 ms (in wrapping uint32 arithmetic) have elapsed since the
value held in the primary channel's lastCrossMs, which is the time of the most
recent tick on which the envelope was at or above the adaptive threshold with
no artifact flagged (including the current tick) — or, when no such tick has
occurred, lastCrossMs's initial/pre-run value (0 after construction), so a
freshly started pipeline reports signalOK = true during the first 2000 ms of
millis() time even before any crossing. -/
theorem c10_signalOK (cfg : Config) (aDC aEnv aThr lsb : ℚ) :
    (∀ (s : PipelineState) (nowMs : ℕ) (c0 c1 : ℤ),
      (tickStep cfg aDC aEnv aThr lsb s nowMs c0 c1).s.stat.signalOK =
        decide (sub32 nowMs
          (primarySt cfg (tickStep cfg aDC aEnv aThr lsb s nowMs c0 c1).s).lastCrossMs
          < 2000)) ∧
    (∀ (s : PipelineState) (nowMs : ℕ) (c0 c1 : ℤ),
      (primarySt cfg (tickStep cfg aDC aEnv aThr lsb s nowMs c0 c1).s).lastCrossMs =
        if (tickStep cfg aDC aEnv aThr lsb s nowMs c0 c1).above = true then nowMs
        else (primarySt cfg s).lastCrossMs) ∧
    (∀ (l : List (ℕ × ℤ × ℤ)) (s : PipelineState),
      (primarySt cfg (tickRunS cfg aDC aEnv aThr lsb s l)).lastCrossMs =
        (lastAboveTime (tickTrace cfg aDC aEnv aThr lsb s l) none).getD
          ((primarySt cfg s).lastCrossMs)) := by
  refine ⟨?_, ?_, tickRunS_lastCross cfg aDC aEnv aThr lsb⟩
  · intro s nowMs c0 c1
    rw [tickStep_s_signalOK, tickStep_primary]
  · intro s nowMs c0 c1
    rw [tickStep_primary, tickStep_lastCross, tickStep_above_eq]

/-! ### C5: apnea FSM event discipline -/

theorem apneaRunAux_append (a f : Bool) (l m : List (ℕ × Bool)) :
    apneaRunAux a f (l ++ m) =
      ((apneaRunAux (apneaRunAux a f l).1 (apneaRunAux a f l).2.1 m).1,
       (apneaRunAux (apneaRunAux a f l).1 (apneaRunAux a f l).2.1 m).2.1,
       (apneaRunAux a f l).2.2 ++
         (apneaRunAux (apneaRunAux a f l).1 (apneaRunAux a f l).2.1 m).2.2) := by
  induction l generalizing a f with
  | nil => simp [apneaRunAux]
  | cons x t ih =>
    obtain ⟨tm, inp⟩ := x
    simp [apneaRunAux, ih]

theorem apneaRunAux_all_false (f : Bool) (l : List (ℕ × Bool))
    (h : ∀ x ∈ l, x.2 = false) : apneaRunAux false f l = (false, f, []) := by
  induction l with
  | nil => rfl
  | cons x t ih =>
    obtain ⟨tm, inp⟩ := x
    have hx : inp = false := h (tm, inp) (List.mem_cons_self _ _)
    have hr : updateApneaFSM tm inp false f = (false, f, []) := by
      rw [hx]
      rfl
    simp only [apneaRunAux, hr]
    rw [ih (fun x hx => h x (List.mem_cons_of_mem _ hx))]
    rfl

theorem apneaRunAux_all_true (f : Bool) (l : List (ℕ × Bool))
    (h : ∀ x ∈ l, x.2 = true) : apneaRunAux true f l = (true, f, []) := by
  induction l with
  | nil => rfl
  | cons x t ih =>
    obtain ⟨tm, inp⟩ := x
    have hx : inp = true := h (tm, inp) (List.mem_cons_self _ _)
    have hr : updateApneaFSM tm inp true f = (true, f, []) := by
      rw [hx]
      rfl
    simp only [apneaRunAux, hr]
    rw [ih (fun x hx => h x (List.mem_cons_of_mem _ hx))]
    rfl

/-- C5: (i) a tick of the apnea FSM that leaves the state unchanged emits no
event; the Inactive-to-Active transition emits exactly ApneaStart and the
Active-to-Inactive transition exactly ApneaEnd; (ii) at the tick level, an
ApneaStart (resp. ApneaEnd) event is delivered iff the tick's computed
apnea condition is true and the FSM was Inactive (resp. false and Active),
and a tick that leaves the FSM state unchanged delivers no apnea event;
(iii) a tick whose above flag is false leaves the crossing timestamp (the
input to the apnea condition) unchanged; and (iv) over any apnea-FSM run
whose input is false for a while, then continuously true (the condition held
for the configured duration), then false again (crossings resumed), exactly
one ApneaStart followed by exactly one ApneaEnd is emitted, each at the
first tick of its phase. -/
theorem c5_apnea_fsm :
    (∀ (t : ℕ) (inp a f : Bool), (updateApneaFSM t inp a f).1 = a →
      (updateApneaFSM t inp a f).2.2 = []) ∧
    (∀ (t : ℕ) (f : Bool), updateApneaFSM t true false f =
      (true, true, [{ type := EventType.ApneaStart, tsMs := t, durationMs := 0 }])) ∧
    (∀ (t : ℕ) (f : Bool), updateApneaFSM t false true f =
      (false, false, [{ type := EventType.ApneaEnd, tsMs := t, durationMs := 0 }])) ∧
    (∀ (cfg : Config) (aDC aEnv aThr lsb : ℚ) (s : PipelineState)
       (nowMs : ℕ) (c0 c1 : ℤ),
      ({ type := EventType.ApneaStart, tsMs := nowMs, durationMs := 0 } ∈
          (tickStep cfg aDC aEnv aThr lsb s nowMs c0 c1).events ↔
        (tickStep cfg aDC aEnv aThr lsb s nowMs c0 c1).apneaNow = true ∧
          s.apneaActive = false) ∧
      ({ type := EventType.ApneaEnd, tsMs := nowMs, durationMs := 0 } ∈
          (tickStep cfg aDC aEnv aThr lsb s nowMs c0 c1).events ↔
        (tickStep cfg aDC aEnv aThr lsb s nowMs c0 c1).apneaNow = false ∧
          s.apneaActive = true) ∧
      ((tickStep cfg aDC aEnv aThr lsb s nowMs c0 c1).s.apneaActive = s.apneaActive →
        ∀ e ∈ (tickStep cfg aDC aEnv aThr lsb s nowMs c0 c1).events,
          e.type ≠ EventType.ApneaStart ∧ e.type ≠ EventType.ApneaEnd)) ∧
    (∀ (cfg : Config) (aDC aEnv aThr lsb : ℚ) (s : PipelineState)
       (nowMs : ℕ) (c0 c1 : ℤ),
      (tickStep cfg aDC aEnv aThr lsb s nowMs c0 c1).above = false →
        (primarySt cfg (tickStep cfg aDC aEnv aThr lsb s nowMs c0 c1).s).lastCrossMs =
          (primarySt cfg s).lastCrossMs) ∧
    (∀ (f : Bool) (t2 t3 : ℕ) (l1 l2 l3 : List (ℕ × Bool)),
      (∀ x ∈ l1, x.2 = false) → (∀ x ∈ l2, x.2 = true) → (∀ x ∈ l3, x.2 = false) →
      (apneaRunAux false f
        (l1 ++ (t2, true) :: l2 ++ (t3, false) :: l3)).2.2 =
        [{ type := EventType.ApneaStart, tsMs := t2, durationMs := 0 },
         { type := EventType.ApneaEnd, tsMs := t3, durationMs := 0 }]) := by
  have hstep : ∀ (t : ℕ) (inp a f : Bool), (updateApneaFSM t inp a f).1 = a →
      (updateApneaFSM t inp a f).2.2 = [] := by
    intro t inp a f h
    cases inp <;> cases a <;> first | rfl | (exfalso; simp [updateApneaFSM] at h)
  refine ⟨hstep, fun t f => rfl, fun t f => rfl, ?_, ?_, ?_⟩
  · intro cfg aDC aEnv aThr lsb s nowMs c0 c1
    have hev := tickStep_events_eq cfg aDC aEnv aThr lsb s nowMs c0 c1
    refine ⟨?_, ?_, ?_⟩
    · constructor
      · intro hm
        rw [hev] at hm
        rcases List.mem_append.1 hm with h1 | h2
        · rcases (updateHypopneaFSM_events _ _ _ _ _ _ _ h1).1 with h | h <;>
            simp at h
        · cases han : (tickStep cfg aDC aEnv aThr lsb s nowMs c0 c1).apneaNow <;>
            cases has : s.apneaActive <;> rw [han, has] at h2 <;>
            simp [updateApneaFSM] at h2 ⊢
      · rintro ⟨han, has⟩
        rw [hev, han, has]
        simp [updateApneaFSM]
    · constructor
      · intro hm
        rw [hev] at hm
        rcases List.mem_append.1 hm with h1 | h2
        · rcases (updateHypopneaFSM_events _ _ _ _ _ _ _ h1).1 with h | h <;>
            simp at h
        · cases han : (tickStep cfg aDC aEnv aThr lsb s nowMs c0 c1).apneaNow <;>
            cases has : s.apneaActive <;> rw [han, has] at h2 <;>
            simp [updateApneaFSM] at h2 ⊢
      · rintro ⟨han, has⟩
        rw [hev, han, has]
        simp [updateApneaFSM]
    · intro hunch e he
      rw [(tickStep_s_apnea cfg aDC aEnv aThr lsb s nowMs c0 c1).1] at hunch
      rw [hev] at he
      rcases List.mem_append.1 he with h1 | h2
      · rcases (updateHypopneaFSM_events _ _ _ _ _ _ _ h1).1 with h | h <;>
          constructor <;> simp [h]
      · rw [show tickApneaNow cfg aDC aEnv aThr lsb s nowMs c0 c1 =
          (tickStep cfg aDC aEnv aThr lsb s nowMs c0 c1).apneaNow from rfl] at hunch
        cases han : (tickStep cfg aDC aEnv aThr lsb s nowMs c0 c1).apneaNow <;>
          cases has : s.apneaActive <;> rw [han, has] at h2 hunch <;>
          simp [updateApneaFSM] at h2 hunch ⊢
  · intro cfg aDC aEnv aThr lsb s nowMs c0 c1 hab
    rw [tickStep_primary, tickStep_lastCross, tickStep_above_eq] at *
    rw [hab]
    simp
  · intro f t2 t3 l1 l2 l3 h1 h2 h3
    have hA : apneaRunAux false f ((t2, true) :: l2) =
        (true, true, [{ type := EventType.ApneaStart, tsMs := t2, durationMs := 0 }]) := by
      have hc : apneaRunAux false f ((t2, true) :: l2) =
          ((apneaRunAux true true l2).1, (apneaRunAux true true l2).2.1,
            [{ type := EventType.ApneaStart, tsMs := t2, durationMs := 0 }] ++
              (apneaRunAux true true l2).2.2) := rfl
      rw [hc, apneaRunAux_all_true true l2 h2]
      rfl
    have hB : apneaRunAux true true ((t3, false) :: l3) =
        (false, false, [{ type := EventType.ApneaEnd, tsMs := t3, durationMs := 0 }]) := by
      have hc : apneaRunAux true true ((t3, false) :: l3) =
          ((apneaRunAux false false l3).1, (apneaRunAux false false l3).2.1,
            [{ type := EventType.ApneaEnd, tsMs := t3, durationMs := 0 }] ++
              (apneaRunAux false false l3).2.2) := rfl
      rw [hc, apneaRunAux_all_false false l3 h3]
      rfl
    have hsplit : l1 ++ (t2, true) :: l2 ++ (t3, false) :: l3 =
        l1 ++ (((t2, true) :: l2) ++ ((t3, false) :: l3)) := by simp
    rw [hsplit, apneaRunAux_append false f l1 (((t2, true) :: l2) ++ ((t3, false) :: l3)),
      apneaRunAux_all_false f l1 h1]
    dsimp only
    rw [apneaRunAux_append false f ((t2, true) :: l2) ((t3, false) :: l3), hA]
    dsimp only
    rw [hB]
    rfl

/-- Witness for C5 at concrete inputs: a state-preserving FSM step emits
nothing; a below-threshold tick preserves the crossing timestamp; and the
run false, true (at t=2), false (at t=4) emits exactly ApneaStart at 2 and
ApneaEnd at 4. -/
theorem c5_witness :
    ((updateApneaFSM 7 true true true).1 = true ∧
     (updateApneaFSM 7 true true true).2.2 = []) ∧
    ((tickStep defaultConfig 0 0 0 (1/8) (beginReset initState) 100 0 0).above = false ∧
     (primarySt defaultConfig
        (tickStep defaultConfig 0 0 0 (1/8) (beginReset initState) 100 0 0).s).lastCrossMs =
       (primarySt defaultConfig (beginReset initState)).lastCrossMs) ∧
    (apneaRunAux false false
        ([(1, false)] ++ (2, true) :: [(3, true)] ++ (4, false) :: [(5, false)])).2.2 =
      [{ type := EventType.ApneaStart, tsMs := 2, durationMs := 0 },
       { type := EventType.ApneaEnd, tsMs := 4, durationMs := 0 }] := by
  have hab : (tickStep defaultConfig 0 0 0 (1/8) (beginReset initState) 100 0 0).above
      = false := by
    rw [tickStep_above_eq]
    with_unfolding_all decide
  refine ⟨⟨rfl, c5_apnea_fsm.1 7 true true true rfl⟩,
    ⟨hab, c5_apnea_fsm.2.2.2.2.1 defaultConfig 0 0 0 (1/8) (beginReset initState)
      100 0 0 hab⟩,
    c5_apnea_fsm.2.2.2.2.2 false 2 4 [(1, false)] [(3, true)] [(5, false)]
      (by simp) (by simp) (by simp)⟩

/-! ### C6: sorting correctness of `robustBpm`'s exchange sort -/

theorem exchPass_perm (x : ℚ) (l : List ℚ) :
    List.Perm ((exchPass x l).1 :: (exchPass x l).2) (x :: l) := by
  induction l generalizing x with
  | nil => rfl
  | cons y ys ih =>
    by_cases h : y < x
    · simp only [exchPass, if_pos h]
      exact List.Perm.trans (List.Perm.swap x (exchPass y ys).1 (exchPass y ys).2)
        ((ih y).cons x)
    · simp only [exchPass, if_neg h]
      exact List.Perm.trans (List.Perm.swap y (exchPass x ys).1 (exchPass x ys).2)
        (List.Perm.trans ((ih x).cons y) (List.Perm.swap x y ys))

theorem exchPass_min (x : ℚ) (l : List ℚ) :
    (exchPass x l).1 ≤ x ∧ ∀ y ∈ (exchPass x l).2, (exchPass x l).1 ≤ y := by
  induction l generalizing x with
  | nil => exact ⟨le_refl x, by simp [exchPass]⟩
  | cons y ys ih =>
    by_cases h : y < x
    · simp only [exchPass, if_pos h]
      refine ⟨le_of_lt (lt_of_le_of_lt (ih y).1 h), ?_⟩
      intro z hz
      rcases List.mem_cons.1 hz with hz | hz
      · rw [hz]
        exact le_of_lt (lt_of_le_of_lt (ih y).1 h)
      · exact (ih y).2 z hz
    · simp only [exchPass, if_neg h]
      refine ⟨(ih x).1, ?_⟩
      intro z hz
      rcases List.mem_cons.1 hz with hz | hz
      · rw [hz]
        exact le_trans (ih x).1 (not_lt.1 h)
      · exact (ih x).2 z hz

theorem exchSort_perm (l : List ℚ) : List.Perm (exchSort l) l := by
  induction l using exchSort.induct with
  | case1 =>
    rw [exchSort]
  | case2 x xs ih =>
    rw [exchSort]
    exact List.Perm.trans (ih.cons (exchPass x xs).1) (exchPass_perm x xs)

theorem exchSort_sorted (l : List ℚ) : List.Sorted (· ≤ ·) (exchSort l) := by
  induction l using exchSort.induct with
  | case1 => simp [exchSort]
  | case2 x xs ih =>
    rw [exchSort, List.sorted_cons]
    refine ⟨?_, ih⟩
    intro b hb
    exact (exchPass_min x xs).2 b ((exchSort_perm _).mem_iff.1 hb)

/-- The source's exchange sort agrees with Mathlib's insertion sort. -/
theorem exchSort_eq_insertionSort (l : List ℚ) :
    exchSort l = l.insertionSort (· ≤ ·) :=
  List.eq_of_perm_of_sorted
    ((exchSort_perm l).trans (List.perm_insertionSort (· ≤ ·) l).symm)
    (exchSort_sorted l) (List.sorted_insertionSort (· ≤ ·) l)

/-- `robustBpm` computes the median (in the spec's sense) of the filled
prefix of the interval ring. -/
theorem robustBpm_eq_median (l : List ℚ) (n : ℕ) (h : n ≤ l.length) :
    robustBpm l n = medianOfRates (l.take n) := by
  simp [robustBpm, medianOfRates, exchSort_eq_insertionSort, List.length_take,
    min_eq_left h]

/-- C6: (i) an accepted peak with no previous peak (lastPeakMs = 0) pushes no
interval and leaves the published rate unchanged — it only seeds timing;
(ii) an accepted peak whose inter-breath interval is strictly between 0.2 s
and 10 s overwrites the oldest ring slot with the instantaneous rate 60/ibi,
advances the ring, and publishes the median of the new ring contents;
(iii) an accepted peak whose interval lies outside that window leaves the
ring and the published rate unchanged (the interval is discarded), while
still re-seeding the peak timing; (iv) `robustBpm` equals the median of the
current ring contents, averaging the two middle values for even counts. -/
theorem c6_rate_estimator :
    (∀ (cfg : Config) (nowMs : ℕ) (p : PeakState), p.C.lastPeakMs = 0 →
      (peakDetectAndRR cfg nowMs p).rrBuf = p.rrBuf ∧
      (peakDetectAndRR cfg nowMs p).rrIdx = p.rrIdx ∧
      (peakDetectAndRR cfg nowMs p).rrFill = p.rrFill ∧
      (peakDetectAndRR cfg nowMs p).bpm = p.bpm) ∧
    (∀ (cfg : Config) (nowMs : ℕ) (p : PeakState),
      (((decide (cfg.thrFactor * max p.C.envBaseline (1/1000000) ≤ p.C.env)
          && !p.prevAbove)
        && decide (msOf cfg.minPeakDistanceSec ≤ sub32 nowMs p.C.lastPeakMs))
        && decide (msOf cfg.refractorySec ≤ sub32 nowMs p.lastEventMs)) = true →
      p.C.lastPeakMs ≠ 0 →
      (1/5 < (sub32 nowMs p.C.lastPeakMs : ℚ) / 1000 ∧
        (sub32 nowMs p.C.lastPeakMs : ℚ) / 1000 < 10) →
      p.rrBuf.length = RR_WIN → p.rrFill ≤ RR_WIN →
      (peakDetectAndRR cfg nowMs p).rrBuf =
        p.rrBuf.set p.rrIdx (60 / ((sub32 nowMs p.C.lastPeakMs : ℚ) / 1000)) ∧
      (peakDetectAndRR cfg nowMs p).rrIdx = (p.rrIdx + 1) % RR_WIN ∧
      (peakDetectAndRR cfg nowMs p).rrFill =
        (if p.rrFill < RR_WIN then p.rrFill + 1 else p.rrFill) ∧
      (peakDetectAndRR cfg nowMs p).bpm =
        medianOfRates (((p.rrBuf.set p.rrIdx
            (60 / ((sub32 nowMs p.C.lastPeakMs : ℚ) / 1000))).take
          (if p.rrFill < RR_WIN then p.rrFill + 1 else p.rrFill))) ∧
      (peakDetectAndRR cfg nowMs p).C.lastPeakMs = nowMs ∧
      (peakDetectAndRR cfg nowMs p).lastEventMs = nowMs) ∧
    (∀ (cfg : Config) (nowMs : ℕ) (p : PeakState),
      (((decide (cfg.thrFactor * max p.C.envBaseline (1/1000000) ≤ p.C.env)
          && !p.prevAbove)
        && decide (msOf cfg.minPeakDistanceSec ≤ sub32 nowMs p.C.lastPeakMs))
        && decide (msOf cfg.refractorySec ≤ sub32 nowMs p.lastEventMs)) = true →
      p.C.lastPeakMs ≠ 0 →
      ¬(1/5 < (sub32 nowMs p.C.lastPeakMs : ℚ) / 1000 ∧
        (sub32 nowMs p.C.lastPeakMs : ℚ) / 1000 < 10) →
      (peakDetectAndRR cfg nowMs p).rrBuf = p.rrBuf ∧
      (peakDetectAndRR cfg nowMs p).rrIdx = p.rrIdx ∧
      (peakDetectAndRR cfg nowMs p).rrFill = p.rrFill ∧
      (peakDetectAndRR cfg nowMs p).bpm = p.bpm ∧
      (peakDetectAndRR cfg nowMs p).C.lastPeakMs = nowMs) ∧
    (∀ (l : List ℚ) (n : ℕ), n ≤ l.length →
      robustBpm l n = medianOfRates (l.take n)) := by
  refine ⟨?_, ?_, ?_, robustBpm_eq_median⟩
  · intro cfg nowMs p h
    simp only [peakDetectAndRR]
    split
    · rw [if_neg (by simp [h])]
      exact ⟨rfl, rfl, rfl, rfl⟩
    · exact ⟨rfl, rfl, rfl, rfl⟩
  · intro cfg nowMs p hacc hseed hwin hlen hfill
    simp only [peakDetectAndRR]
    rw [if_pos hacc, if_pos hseed, if_pos hwin]
    refine ⟨rfl, rfl, rfl, ?_, rfl, rfl⟩
    show robustBpm _ _ = _
    have hlen2 : (if p.rrFill < RR_WIN then p.rrFill + 1 else p.rrFill) ≤
        (p.rrBuf.set p.rrIdx
          (60 / ((sub32 nowMs p.C.lastPeakMs : ℚ) / 1000))).length := by
      rw [List.length_set, hlen]
      split <;> omega
    exact robustBpm_eq_median _ _ hlen2
  · intro cfg nowMs p hacc hseed hwin
    simp only [peakDetectAndRR]
    rw [if_pos hacc, if_pos hseed, if_neg hwin]
    exact ⟨rfl, rfl, rfl, rfl, rfl⟩

/-- Witness for C6 at a concrete accepted first-interval peak (seed state
`c6Peak`, accepted at 5000 ms, interval 4 s, rate 15 bpm) and a seed-only
state, plus a concrete even-count median. -/
theorem c6_witness :
    ({ c6Peak with C := { c6Peak.C with lastPeakMs := 0 } }.C.lastPeakMs = 0 ∧
      (peakDetectAndRR defaultConfig 5000
        { c6Peak with C := { c6Peak.C with lastPeakMs := 0 } }).bpm =
        { c6Peak with C := { c6Peak.C with lastPeakMs := 0 } }.bpm) ∧
    ((peakDetectAndRR defaultConfig 5000 c6Peak).rrBuf =
        c6Peak.rrBuf.set c6Peak.rrIdx
          (60 / ((sub32 5000 c6Peak.C.lastPeakMs : ℚ) / 1000)) ∧
      (peakDetectAndRR defaultConfig 5000 c6Peak).C.lastPeakMs = 5000) ∧
    ((4 : ℕ) ≤ ([4, 2, 6, 1, 0, 0] : List ℚ).length ∧
      robustBpm [4, 2, 6, 1, 0, 0] 4 =
        medianOfRates (([4, 2, 6, 1, 0, 0] : List ℚ).take 4)) := by
  have hseed0 : { c6Peak with C := { c6Peak.C with lastPeakMs := 0 } }.C.lastPeakMs
      = 0 := rfl
  have hacc : (((decide (defaultConfig.thrFactor *
        max c6Peak.C.envBaseline (1/1000000) ≤ c6Peak.C.env)
      && !c6Peak.prevAbove)
    && decide (msOf defaultConfig.minPeakDistanceSec ≤ sub32 5000 c6Peak.C.lastPeakMs))
    && decide (msOf defaultConfig.refractorySec ≤ sub32 5000 c6Peak.lastEventMs)) =
      true := by
    with_unfolding_all decide
  have hwin : 1/5 < (sub32 5000 c6Peak.C.lastPeakMs : ℚ) / 1000 ∧
      (sub32 5000 c6Peak.C.lastPeakMs : ℚ) / 1000 < 10 := by
    constructor <;> with_unfolding_all decide
  have h2 := c6_rate_estimator.2.1 defaultConfig 5000 c6Peak hacc
    (by with_unfolding_all decide) hwin rfl (by with_unfolding_all decide)
  exact ⟨⟨hseed0, ((c6_rate_estimator.1 defaultConfig 5000
      { c6Peak with C := { c6Peak.C with lastPeakMs := 0 } } hseed0).2.2.2)⟩,
    ⟨h2.1, h2.2.2.2.2.1⟩,
    ⟨by with_unfolding_all decide,
      c6_rate_estimator.2.2.2 [4, 2, 6, 1, 0, 0] 4 (by with_unfolding_all decide)⟩⟩

/-! ### C3: telemetry ring -/

theorem teleList_length (s : PipelineState) :
    (teleList s).length = teleCount s := by
  simp [teleList]

theorem teleCount_lt (s : PipelineState) : teleCount s < TELE_CAP := by
  rw [teleCount, TELE_CAP]
  omega

theorem pushTele_bounds (r : ℕ) (s : PipelineState)
    (h : s.tlHead < TELE_CAP ∧ s.tlTail < TELE_CAP) :
    (pushTele r s).tlHead < TELE_CAP ∧ (pushTele r s).tlTail < TELE_CAP := by
  obtain ⟨hh, ht⟩ := h
  rw [TELE_CAP] at hh ht
  rw [pushTele]
  constructor
  · show (s.tlHead + 1) % TELE_CAP < TELE_CAP
    rw [TELE_CAP]
    omega
  · show (if (s.tlHead + 1) % TELE_CAP = s.tlTail
      then (s.tlTail + 1) % TELE_CAP else s.tlTail) < TELE_CAP
    rw [TELE_CAP]
    split <;> omega

set_option maxRecDepth 4000 in
/-- One `pushTele` in terms of the held-records abstraction: append the new
record, dropping the oldest when the ring already holds `TELE_CAP - 1`. -/
theorem pushTele_teleList (r : ℕ) (s : PipelineState)
    (hb : s.tlHead < TELE_CAP ∧ s.tlTail < TELE_CAP) :
    teleList (pushTele r s) =
      if teleCount s = TELE_CAP - 1
      then (teleList s).drop 1 ++ [mkTelemetry r s.stat]
      else teleList s ++ [mkTelemetry r s.stat] := by
  obtain ⟨hh, ht⟩ := hb
  rw [TELE_CAP] at hh ht
  have hcount : teleCount s = (s.tlHead + 256 - s.tlTail) % 256 := by
    rw [teleCount, TELE_CAP]
  by_cases hfull : (s.tlHead + 1) % TELE_CAP = s.tlTail
  · -- ring full: count = 255, tail advances
    have hfull' : (s.tlHead + 1) % 256 = s.tlTail := by
      rw [TELE_CAP] at hfull
      exact hfull
    have hc255 : teleCount s = 255 := by
      rw [hcount]
      omega
    have hc' : teleCount (pushTele r s) = 255 := by
      rw [teleCount, pushTele]
      show ((s.tlHead + 1) % TELE_CAP + TELE_CAP -
        (if (s.tlHead + 1) % TELE_CAP = s.tlTail
         then (s.tlTail + 1) % TELE_CAP else s.tlTail)) % TELE_CAP = 255
      rw [if_pos hfull, TELE_CAP]
      omega
    rw [if_pos (by rw [hc255]; rfl)]
    rw [teleList, hc']
    have htl' : (pushTele r s).tlTail = (s.tlTail + 1) % 256 := by
      rw [pushTele]
      show (if (s.tlHead + 1) % TELE_CAP = s.tlTail
        then (s.tlTail + 1) % TELE_CAP else s.tlTail) = (s.tlTail + 1) % 256
      rw [if_pos hfull, TELE_CAP]
    have hrange : List.range 255 = List.range 254 ++ [254] := by
      rw [← List.range_succ]
    rw [hrange, List.map_append]
    have hdrop : (teleList s).drop 1 =
        (List.range 254).map (fun i => s.tele ((s.tlTail + (i + 1)) % TELE_CAP)) := by
      rw [teleList, hc255, List.range_succ_eq_map]
      simp [Function.comp]
    rw [hdrop]
    congr 1
    · apply List.map_congr_left
      intro i hi
      have hi' : i < 254 := List.mem_range.1 hi
      have hne : ((pushTele r s).tlTail + i) % TELE_CAP ≠ s.tlHead := by
        rw [htl', TELE_CAP]
        omega
      have heq : ((pushTele r s).tlTail + i) % TELE_CAP =
          (s.tlTail + (i + 1)) % TELE_CAP := by
        rw [htl', TELE_CAP]
        omega
      show (pushTele r s).tele (((pushTele r s).tlTail + i) % TELE_CAP) =
        s.tele ((s.tlTail + (i + 1)) % TELE_CAP)
      rw [pushTele]
      show (if ((pushTele r s).tlTail + i) % TELE_CAP = s.tlHead
        then mkTelemetry r s.stat
        else s.tele (((pushTele r s).tlTail + i) % TELE_CAP)) = _
      rw [if_neg hne, heq]
    · have heq : ((pushTele r s).tlTail + 254) % TELE_CAP = s.tlHead := by
        rw [htl', TELE_CAP]
        omega
      show [(pushTele r s).tele (((pushTele r s).tlTail + 254) % TELE_CAP)] = _
      rw [pushTele]
      show [if ((pushTele r s).tlTail + 254) % TELE_CAP = s.tlHead
        then mkTelemetry r s.stat
        else s.tele (((pushTele r s).tlTail + 254) % TELE_CAP)] = _
      rw [if_pos heq]
  · -- ring not full: tail stays, count grows by one
    have hfull' : (s.tlHead + 1) % 256 ≠ s.tlTail := by
      rw [TELE_CAP] at hfull
      exact hfull
    have hclt : teleCount s < 255 := by
      rw [hcount]
      omega
    have hc' : teleCount (pushTele r s) = teleCount s + 1 := by
      rw [teleCount, pushTele]
      show ((s.tlHead + 1) % TELE_CAP + TELE_CAP -
        (if (s.tlHead + 1) % TELE_CAP = s.tlTail
         then (s.tlTail + 1) % TELE_CAP else s.tlTail)) % TELE_CAP = teleCount s + 1
      rw [if_neg hfull, hcount, TELE_CAP]
      omega
    rw [if_neg (show ¬teleCount s = TELE_CAP - 1 by rw [TELE_CAP]; omega)]
    have htl' : (pushTele r s).tlTail = s.tlTail := by
      rw [pushTele]
      show (if (s.tlHead + 1) % TELE_CAP = s.tlTail
        then (s.tlTail + 1) % TELE_CAP else s.tlTail) = s.tlTail
      rw [if_neg hfull]
    rw [teleList, hc']
    have hrange : List.range (teleCount s + 1) =
        List.range (teleCount s) ++ [teleCount s] := by
      rw [← List.range_succ]
    rw [hrange, List.map_append]
    congr 1
    · rw [teleList]
      apply List.map_congr_left
      intro i hi
      have hi' : i < teleCount s := List.mem_range.1 hi
      rw [hcount] at hi'
      have hne : ((pushTele r s).tlTail + i) % TELE_CAP ≠ s.tlHead := by
        rw [htl', TELE_CAP]
        omega
      have heq : ((pushTele r s).tlTail + i) % TELE_CAP =
          (s.tlTail + i) % TELE_CAP := by
        rw [htl']
      show (pushTele r s).tele (((pushTele r s).tlTail + i) % TELE_CAP) =
        s.tele ((s.tlTail + i) % TELE_CAP)
      rw [pushTele]
      show (if ((pushTele r s).tlTail + i) % TELE_CAP = s.tlHead
        then mkTelemetry r s.stat
        else s.tele (((pushTele r s).tlTail + i) % TELE_CAP)) = _
      rw [if_neg hne, heq]
    · have hcnt : teleCount s = (s.tlHead + 256 - s.tlTail) % 256 := hcount
      have heq : ((pushTele r s).tlTail + teleCount s) % TELE_CAP = s.tlHead := by
        rw [htl', TELE_CAP]
        omega
      show [(pushTele r s).tele (((pushTele r s).tlTail + teleCount s) % TELE_CAP)] = _
      rw [pushTele]
      show [if ((pushTele r s).tlTail + teleCount s) % TELE_CAP = s.tlHead
        then mkTelemetry r s.stat
        else s.tele (((pushTele r s).tlTail + teleCount s) % TELE_CAP)] = _
      rw [if_pos heq]

theorem popTelemetry_empty (s : PipelineState) (h : s.tlHead = s.tlTail) :
    popTelemetry s = none := by
  rw [popTelemetry, if_pos h]

/-- A nonempty pop returns the record at the tail and advances the tail; the
held-records abstraction loses exactly its head. -/
theorem popTelemetry_some (s : PipelineState)
    (hb : s.tlHead < TELE_CAP ∧ s.tlTail < TELE_CAP) (h : teleCount s ≠ 0) :
    popTelemetry s =
      some (s.tele s.tlTail, { s with tlTail := (s.tlTail + 1) % TELE_CAP }) ∧
    teleList s =
      s.tele s.tlTail :: teleList { s with tlTail := (s.tlTail + 1) % TELE_CAP } ∧
    teleCount { s with tlTail := (s.tlTail + 1) % TELE_CAP } = teleCount s - 1 := by
  obtain ⟨hh, ht⟩ := hb
  rw [TELE_CAP] at hh ht
  have hcount : teleCount s = (s.tlHead + 256 - s.tlTail) % 256 := by
    rw [teleCount, TELE_CAP]
  have hne : ¬s.tlHead = s.tlTail := by
    intro he
    apply h
    rw [hcount, he]
    omega
  have hcnt' : teleCount { s with tlTail := (s.tlTail + 1) % TELE_CAP } =
      teleCount s - 1 := by
    show (s.tlHead + TELE_CAP - (s.tlTail + 1) % TELE_CAP) % TELE_CAP =
      teleCount s - 1
    rw [hcount, TELE_CAP]
    omega
  refine ⟨by rw [popTelemetry, if_neg hne], ?_, hcnt'⟩
  have hc1 : ∃ c, teleCount s = c + 1 := by
    rw [hcount]
    rw [hcount] at h
    exact ⟨(s.tlHead + 256 - s.tlTail) % 256 - 1, by omega⟩
  obtain ⟨c, hc⟩ := hc1
  rw [teleList, teleList, hc, hcnt', hc]
  show (List.range (c + 1)).map (fun i => s.tele ((s.tlTail + i) % TELE_CAP)) =
    s.tele s.tlTail ::
      (List.range (c + 1 - 1)).map
        (fun i => s.tele (((s.tlTail + 1) % TELE_CAP + i) % TELE_CAP))
  rw [List.range_succ_eq_map]
  simp only [List.map_cons, List.map_map, Nat.add_sub_cancel]
  congr 1
  · show s.tele ((s.tlTail + 0) % TELE_CAP) = s.tele s.tlTail
    rw [TELE_CAP]
    congr 1
    omega
  · apply List.map_congr_left
    intro i hi
    show s.tele ((s.tlTail + (i + 1)) % TELE_CAP) =
      s.tele (((s.tlTail + 1) % TELE_CAP + i) % TELE_CAP)
    rw [TELE_CAP]
    congr 1
    omega

theorem drainTele_eq_teleList : ∀ (fuel : ℕ) (s : PipelineState),
    s.tlHead < TELE_CAP → s.tlTail < TELE_CAP → teleCount s ≤ fuel →
    drainTele fuel s = teleList s := by
  intro fuel
  induction fuel with
  | zero =>
    intro s h1 h2 hf
    have hz : teleCount s = 0 := Nat.le_zero.1 hf
    rw [teleList, hz]
    rfl
  | succ n ih =>
    intro s h1 h2 hf
    by_cases hz : teleCount s = 0
    · have hht : s.tlHead = s.tlTail := by
        rw [teleCount, TELE_CAP] at hz
        rw [TELE_CAP] at h1 h2
        omega
      show drainTele (n + 1) s = teleList s
      simp only [drainTele, popTelemetry_empty s hht]
      rw [teleList, hz]
      rfl
    · obtain ⟨hpop, hlist, hcnt⟩ := popTelemetry_some s ⟨h1, h2⟩ hz
      show drainTele (n + 1) s = teleList s
      simp only [drainTele, hpop]
      rw [hlist]
      congr 1
      apply ih
      · exact h1
      · show (s.tlTail + 1) % TELE_CAP < TELE_CAP
        rw [TELE_CAP]
        omega
      · rw [hcnt]
        omega

/-- Folding `pushTele` over a timestamp list from a bounded state: the held
records are the last `TELE_CAP - 1` entries of (old records ++ new records). -/
theorem pushTeleMany_teleList : ∀ (tss : List ℕ) (s : PipelineState),
    s.tlHead < TELE_CAP → s.tlTail < TELE_CAP →
    teleList (pushTeleMany tss s) =
      (teleList s ++ tss.map (fun t => mkTelemetry t s.stat)).drop
        ((teleList s).length + tss.length - (TELE_CAP - 1)) ∧
    (pushTeleMany tss s).tlHead < TELE_CAP ∧
    (pushTeleMany tss s).tlTail < TELE_CAP ∧
    (pushTeleMany tss s).stat = s.stat := by
  intro tss
  induction tss with
  | nil =>
    intro s h1 h2
    refine ⟨?_, h1, h2, rfl⟩
    have hlen : (teleList s).length ≤ TELE_CAP - 1 := by
      rw [teleList_length]
      have := teleCount_lt s
      omega
    have hz : (teleList s).length + ([] : List ℕ).length - (TELE_CAP - 1) = 0 := by
      simp only [List.length_nil, Nat.add_zero]
      omega
    show teleList s = (teleList s ++ ([] : List ℕ).map
      (fun t => mkTelemetry t s.stat)).drop
        ((teleList s).length + ([] : List ℕ).length - (TELE_CAP - 1))
    rw [hz]
    simp
  | cons t ts ih =>
    intro s h1 h2
    have hb' := pushTele_bounds t s ⟨h1, h2⟩
    have hstat : (pushTele t s).stat = s.stat := rfl
    obtain ⟨ihl, ihh, iht, ihs⟩ := ih (pushTele t s) hb'.1 hb'.2
    have hstep : pushTeleMany (t :: ts) s = pushTeleMany ts (pushTele t s) := rfl
    rw [hstep]
    refine ⟨?_, ihh, iht, by rw [ihs, hstat]⟩
    rw [ihl, hstat, pushTele_teleList t s ⟨h1, h2⟩]
    have hmapc : (t :: ts).map (fun u => mkTelemetry u s.stat) =
        mkTelemetry t s.stat :: ts.map (fun u => mkTelemetry u s.stat) := rfl
    rw [hmapc]
    by_cases hc : teleCount s = TELE_CAP - 1
    · rw [if_pos hc]
      have hlen : (teleList s).length = 255 := by
        rw [teleList_length, hc]
        rfl
      obtain ⟨a, l', hal⟩ : ∃ a l', teleList s = a :: l' := by
        cases hL : teleList s
        · rw [hL] at hlen
          simp at hlen
        · exact ⟨_, _, rfl⟩
      have hl' : l'.length = 254 := by
        rw [hal] at hlen
        simp at hlen
        omega
      have hd1 : (a :: l').drop 1 = l' := rfl
      rw [hal, hd1]
      have hL1 : (l' ++ [mkTelemetry t s.stat]).length + ts.length -
          (TELE_CAP - 1) = ts.length := by
        rw [List.length_append, List.length_singleton, hl', TELE_CAP]
        omega
      have hL2 : (a :: l').length + (t :: ts).length - (TELE_CAP - 1) =
          ts.length + 1 := by
        rw [List.length_cons, List.length_cons, hl', TELE_CAP]
        omega
      rw [hL1, hL2, List.cons_append, List.drop_succ_cons, List.append_assoc,
        List.singleton_append]
    · rw [if_neg hc]
      rw [List.append_assoc, List.singleton_append]
      have hA : (teleList s ++ [mkTelemetry t s.stat]).length + ts.length -
          (TELE_CAP - 1) =
          (teleList s).length + (t :: ts).length - (TELE_CAP - 1) := by
        rw [List.length_append, List.length_singleton, List.length_cons]
        omega
      rw [hA]

set_option maxRecDepth 8000 in
/-- C3 counterexample: starting from the fresh (empty) telemetry ring and
pushing TELE_CAP + 1 = 257 records stamped 0..256, only TELE_CAP - 1 = 255
records are retrievable and the TWO oldest records (0 and 1) are discarded —
refuting the claim that exactly TELE_CAP records remain with only the single
oldest discarded. -/
theorem c3_counterexample :
    (drainTele TELE_CAP c3State).length = TELE_CAP - 1 ∧
    TELE_CAP - 1 ≠ TELE_CAP ∧
    (drainTele TELE_CAP c3State).map (fun rec => rec.tsMs) =
      (List.range (TELE_CAP + 1)).drop 2 := by
  have hinit1 : initState.tlHead < TELE_CAP := by rw [TELE_CAP]; exact Nat.zero_lt_succ _
  have hinit2 : initState.tlTail < TELE_CAP := by rw [TELE_CAP]; exact Nat.zero_lt_succ _
  obtain ⟨hl, hh, ht, _⟩ :=
    pushTeleMany_teleList (List.range 257) initState hinit1 hinit2
  have hinitlist : teleList initState = [] := by
    rw [teleList]
    show (List.range ((0 + TELE_CAP - 0) % TELE_CAP)).map _ = []
    rw [TELE_CAP]
    rfl
  rw [hinitlist] at hl
  simp only [List.nil_append, List.length_nil, List.length_map,
    List.length_range, Nat.zero_add] at hl
  have hdrop : (257 : ℕ) - (TELE_CAP - 1) = 2 := by rw [TELE_CAP]
  rw [hdrop] at hl
  have hdrain : drainTele TELE_CAP c3State = teleList c3State := by
    apply drainTele_eq_teleList TELE_CAP c3State hh ht
    have := teleCount_lt c3State
    omega
  have hc3 : teleList c3State =
      ((List.range 257).map (fun t => mkTelemetry t initState.stat)).drop 2 := hl
  refine ⟨?_, by rw [TELE_CAP]; omega, ?_⟩
  · rw [hdrain, hc3]
    simp [TELE_CAP]
  · rw [hdrain, hc3, ← List.map_drop, List.map_map]
    rw [show ((fun rec => Telemetry.tsMs rec) ∘
        (fun t => mkTelemetry t initState.stat)) = id from rfl, List.map_id,
      TELE_CAP]

/-- C3 (amended): starting from an empty telemetry ring (head = tail, both in
range), performing TELE_CAP + 1 pushes leaves exactly TELE_CAP - 1 = 255
records retrievable via popTelemetry — the ring's usable capacity is
TELE_CAP - 1, one slot is sacrificed to distinguish full from empty — namely
the last TELE_CAP - 1 pushed records in FIFO (push) order, the TWO oldest
being discarded; and popTelemetry on an empty ring returns none (false)
without writing anything. -/
theorem c3_amended (tss : List ℕ) (s : PipelineState)
    (hlen : tss.length = TELE_CAP + 1) (hempty : s.tlHead = s.tlTail)
    (h1 : s.tlHead < TELE_CAP) (h2 : s.tlTail < TELE_CAP) :
    drainTele TELE_CAP (pushTeleMany tss s) =
      (tss.map (fun t => mkTelemetry t s.stat)).drop 2 ∧
    (drainTele TELE_CAP (pushTeleMany tss s)).length = TELE_CAP - 1 ∧
    popTelemetry s = none := by
  obtain ⟨hl, hh, ht, _⟩ := pushTeleMany_teleList tss s h1 h2
  have hinitlist : teleList s = [] := by
    rw [teleList, teleCount, hempty]
    have : (s.tlTail + TELE_CAP - s.tlTail) % TELE_CAP = 0 := by
      rw [TELE_CAP]
      omega
    rw [this]
    rfl
  rw [hinitlist, List.nil_append, List.length_nil, hlen] at hl
  have hdrop : (0 : ℕ) + (TELE_CAP + 1) - (TELE_CAP - 1) = 2 := by
    rw [TELE_CAP]
  rw [hdrop] at hl
  have hdrain : drainTele TELE_CAP (pushTeleMany tss s) =
      teleList (pushTeleMany tss s) := by
    apply drainTele_eq_teleList TELE_CAP _ hh ht
    have := teleCount_lt (pushTeleMany tss s)
    omega
  refine ⟨by rw [hdrain, hl], ?_, popTelemetry_empty s hempty⟩
  rw [hdrain, hl]
  simp [hlen, TELE_CAP]

/-- Witness for C3 (amended) with 257 pushes stamped 0..256 from the fresh
pipeline state. -/
theorem c3_witness :
    (List.range (TELE_CAP + 1)).length = TELE_CAP + 1 ∧
    initState.tlHead = initState.tlTail ∧
    (drainTele TELE_CAP (pushTeleMany (List.range (TELE_CAP + 1)) initState) =
      ((List.range (TELE_CAP + 1)).map
        (fun t => mkTelemetry t initState.stat)).drop 2 ∧
     (drainTele TELE_CAP
        (pushTeleMany (List.range (TELE_CAP + 1)) initState)).length =
       TELE_CAP - 1 ∧
     popTelemetry initState = none) :=
  ⟨List.length_range _, rfl,
    c3_amended (List.range (TELE_CAP + 1)) initState (List.length_range _) rfl
      (by rw [TELE_CAP]; exact Nat.zero_lt_succ _)
      (by rw [TELE_CAP]; exact Nat.zero_lt_succ _)⟩

/-! ### C2: burst ring export -/

theorem burstCap_default : burstCap defaultConfig = 600 := by
  with_unfolding_all decide

theorem pushBurstMany_succ (cfg : Config) (v1 v2 : ℕ → ℤ) (k : ℕ)
    (s : PipelineState) :
    pushBurstMany cfg v1 v2 (k + 1) s =
      pushBurst cfg (pushBurstMany cfg v1 v2 k s) (v1 k) (v2 k) := by
  rw [pushBurstMany, List.range_succ, List.foldl_append]
  rfl

/-- Head/fill/tail evolution of the default-config burst ring (runtime
capacity 600) over `k` pushes from the fresh state, and the fact that slots
at or beyond the runtime capacity are never written. -/
theorem pushBurstMany_state (v1 v2 : ℕ → ℤ) : ∀ k : ℕ,
    (pushBurstMany defaultConfig v1 v2 k initState).burstHead = k % 600 ∧
    (pushBurstMany defaultConfig v1 v2 k initState).burstFill = min k 600 ∧
    (pushBurstMany defaultConfig v1 v2 k initState).burstTail =
      (if k ≤ 600 then 0 else (k - 600) % 600) ∧
    (∀ j, 600 ≤ j →
      (pushBurstMany defaultConfig v1 v2 k initState).burstCh1 j = 0) := by
  intro k
  induction k with
  | zero => exact ⟨rfl, rfl, rfl, fun j _ => rfl⟩
  | succ k ih =>
    obtain ⟨ihh, ihf, iht, ihb⟩ := ih
    rw [pushBurstMany_succ, pushBurst, burstCap_default]
    refine ⟨?_, ?_, ?_, ?_⟩
    · show ((pushBurstMany defaultConfig v1 v2 k initState).burstHead + 1) % 600 =
        (k + 1) % 600
      rw [ihh]
      omega
    · show (if (pushBurstMany defaultConfig v1 v2 k initState).burstFill < 600
        then (pushBurstMany defaultConfig v1 v2 k initState).burstFill + 1
        else (pushBurstMany defaultConfig v1 v2 k initState).burstFill) =
          min (k + 1) 600
      rw [ihf]
      split <;> omega
    · show (if (pushBurstMany defaultConfig v1 v2 k initState).burstFill < 600
        then (pushBurstMany defaultConfig v1 v2 k initState).burstTail
        else ((pushBurstMany defaultConfig v1 v2 k initState).burstTail + 1) % 600) =
          (if k + 1 ≤ 600 then 0 else (k + 1 - 600) % 600)
      rw [ihf, iht]
      by_cases hk : k < 600
      · rw [if_pos (show min k 600 < 600 by omega),
          if_pos (show k ≤ 600 by omega), if_pos (show k + 1 ≤ 600 by omega)]
      · rw [if_neg (show ¬min k 600 < 600 by omega),
          if_neg (show ¬k + 1 ≤ 600 by omega)]
        split <;> omega
    · intro j hj
      show (if j = (pushBurstMany defaultConfig v1 v2 k initState).burstHead
        then v1 k
        else (pushBurstMany defaultConfig v1 v2 k initState).burstCh1 j) = 0
      rw [if_neg (by rw [ihh]; omega)]
      exact ihb j hj

/-- The `k+1`-st push writes its first-channel sample at the pre-push head. -/
theorem pushBurstMany_lastWrite (v1 v2 : ℕ → ℤ) (k : ℕ) :
    (pushBurstMany defaultConfig v1 v2 (k + 1) initState).burstCh1
      ((pushBurstMany defaultConfig v1 v2 k initState).burstHead) = v1 k := by
  rw [pushBurstMany_succ, pushBurst]
  show (if (pushBurstMany defaultConfig v1 v2 k initState).burstHead =
      (pushBurstMany defaultConfig v1 v2 k initState).burstHead
    then v1 k
    else (pushBurstMany defaultConfig v1 v2 k initState).burstCh1
      ((pushBurstMany defaultConfig v1 v2 k initState).burstHead)) = v1 k
  rw [if_pos rfl]

theorem exportBurst_count (s : PipelineState) (maxSamples : ℕ) :
    (exportBurst s maxSamples).1 = min s.burstFill maxSamples := rfl

theorem exportBurst_ch1 (s : PipelineState) (maxSamples : ℕ) :
    (exportBurst s maxSamples).2.1 =
      (List.range (min s.burstFill maxSamples)).map
        (fun i => s.burstCh1 ((s.burstTail + i) % BURST_CAP)) := rfl

/-- C2 bug witness: with the default configuration the runtime burst ring
capacity is 600, but `exportBurst` indexes modulo the compile-time
`BURST_CAP = 16000`.  After 601 pushes of ch1 samples 1..601 the ring holds
samples 2..601 (oldest-to-newest, tail = 1, fill = 600); export of 600
samples returns count 600, but its LAST copied sample reads the never-written
slot 600 and yields 0, while the newest held sample — at slot
(tail + 599) mod 600 = 0 — is 601.  The exported data is therefore NOT the
currently-held samples in oldest-to-newest order once the ring has wrapped. -/
theorem c2_exportBurst_bug :
    burstCap defaultConfig = 600 ∧
    c2State.burstFill = 600 ∧
    c2State.burstTail = 1 ∧
    (exportBurst c2State 600).1 = 600 ∧
    (exportBurst c2State 600).2.1[599]? = some 0 ∧
    c2State.burstCh1 ((c2State.burstTail + 599) % burstCap defaultConfig) = 601 := by
  obtain ⟨hh, hf, ht, hb⟩ :=
    pushBurstMany_state (fun i => (i : ℤ) + 1) (fun _ => 0) 601
  have hf' : c2State.burstFill = 600 := by
    rw [c2State, hf]
    omega
  have ht' : c2State.burstTail = 1 := by
    rw [c2State, ht, if_neg (show ¬(601 : ℕ) ≤ 600 by omega)]
  have hb' : ∀ j, 600 ≤ j → c2State.burstCh1 j = 0 := by
    intro j hj
    rw [c2State]
    exact hb j hj
  refine ⟨burstCap_default, hf', ht', ?_, ?_, ?_⟩
  · rw [exportBurst_count, hf']
    omega
  · rw [exportBurst_ch1, hf', ht', Nat.min_self, List.getElem?_map,
      List.getElem?_range (show (599 : ℕ) < 600 by omega)]
    have hidx : ((1 : ℕ) + 599) % BURST_CAP = 600 := by
      rw [BURST_CAP]
    show some (c2State.burstCh1 ((1 + 599) % BURST_CAP)) = some 0
    rw [hidx, hb' 600 (le_refl 600)]
  · rw [ht', burstCap_default]
    have h0 : ((1 : ℕ) + 599) % 600 = 0 := by omega
    rw [h0]
    have hhd : (pushBurstMany defaultConfig (fun i => (i : ℤ) + 1)
        (fun _ => 0) 600 initState).burstHead = 0 := by
      rw [(pushBurstMany_state (fun i => (i : ℤ) + 1) (fun _ => 0) 600).1]
    have hlast := pushBurstMany_lastWrite (fun i => (i : ℤ) + 1) (fun _ => 0) 600
    rw [hhd] at hlast
    rw [c2State, hlast]
    norm_num

/-! ### C8: smoothing coefficient -/

/-- C8: the smoothing coefficient equals 1 for every non-positive tau; for
every tau > 0 and integer rate ≥ 1 it equals `1 - exp(-(1/rate)/tau)`, lies
strictly between 0 and 1, and is strictly monotonically increasing as tau
decreases at fixed rate. -/
theorem c8_alphaFromTau_spec :
    (∀ tau : ℝ, ∀ fs : ℕ, tau ≤ 0 → alphaFromTau tau fs = 1) ∧
    (∀ tau : ℝ, ∀ fs : ℕ, 0 < tau → 1 ≤ fs →
      alphaFromTau tau fs = 1 - Real.exp (-(1 / (fs : ℝ)) / tau) ∧
      0 < alphaFromTau tau fs ∧ alphaFromTau tau fs < 1) ∧
    (∀ tau1 tau2 : ℝ, ∀ fs : ℕ, 0 < tau1 → tau1 < tau2 → 1 ≤ fs →
      alphaFromTau tau2 fs < alphaFromTau tau1 fs) := by
  have hval : ∀ tau : ℝ, ∀ fs : ℕ, 0 < tau → 1 ≤ fs →
      alphaFromTau tau fs = 1 - Real.exp (-(1 / (fs : ℝ)) / tau) := by
    intro tau fs htau hfs
    rw [alphaFromTau, if_neg (not_le.2 htau), Nat.max_eq_right hfs]
  have hfspos : ∀ fs : ℕ, 1 ≤ fs → (0 : ℝ) < (fs : ℝ) := by
    intro fs hfs
    exact_mod_cast Nat.lt_of_lt_of_le Nat.zero_lt_one hfs
  refine ⟨?_, ?_, ?_⟩
  · intro tau fs htau
    rw [alphaFromTau, if_pos htau]
  · intro tau fs htau hfs
    have hdt : (0 : ℝ) < 1 / (fs : ℝ) := by positivity
    have harg : -(1 / (fs : ℝ)) / tau < 0 := by
      have : (0 : ℝ) < (1 / (fs : ℝ)) / tau := by positivity
      have hneg : -(1 / (fs : ℝ)) / tau = -((1 / (fs : ℝ)) / tau) := by ring
      rw [hneg]
      linarith
    refine ⟨hval tau fs htau hfs, ?_, ?_⟩
    · rw [hval tau fs htau hfs]
      have := Real.exp_lt_one_iff.2 harg
      linarith
    · rw [hval tau fs htau hfs]
      have := Real.exp_pos (-(1 / (fs : ℝ)) / tau)
      linarith
  · intro tau1 tau2 fs h1 h12 hfs
    rw [hval tau1 fs h1 hfs, hval tau2 fs (lt_trans h1 h12) hfs]
    have hdt : (0 : ℝ) < 1 / (fs : ℝ) := by
      have := hfspos fs hfs
      positivity
    have hdiv : (1 / (fs : ℝ)) / tau2 < (1 / (fs : ℝ)) / tau1 :=
      div_lt_div_of_pos_left hdt h1 h12
    have hexp : Real.exp (-(1 / (fs : ℝ)) / tau1) < Real.exp (-(1 / (fs : ℝ)) / tau2) := by
      apply Real.exp_lt_exp.2
      rw [neg_div, neg_div]
      exact neg_lt_neg hdiv
    linarith

/-- Witness for C8 at concrete inputs tau ∈ {0, 1, 2}, fs = 1. -/
theorem c8_alphaFromTau_spec_witness :
    alphaFromTau 0 100 = 1 ∧
    (alphaFromTau 1 1 = 1 - Real.exp (-(1 / ((1 : ℕ) : ℝ)) / 1) ∧
      0 < alphaFromTau 1 1 ∧ alphaFromTau 1 1 < 1) ∧
    alphaFromTau 2 1 < alphaFromTau 1 1 :=
  ⟨c8_alphaFromTau_spec.1 0 100 le_rfl,
   c8_alphaFromTau_spec.2.1 1 1 one_pos le_rfl,
   c8_alphaFromTau_spec.2.2 1 2 1 one_pos one_lt_two le_rfl⟩

/-! ### C4: what `begin` resets and what it preserves -/

/-- C4 counterexample: re-initialisation does NOT zero all pipeline state —
after `begin`, the first channel's envelope, the burst ring fill count, and
the apnea FSM's Active state survive from before the call, refuting the claim
that every piece of mutable state is zeroed. -/
theorem c4_counterexample :
    (beginReset c4Pre).ch1.env ≠ 0 ∧
    (beginReset c4Pre).burstFill ≠ 0 ∧
    (beginReset c4Pre).apneaActive ≠ false := by
  refine ⟨?_, ?_, ?_⟩
  · show (5 : ℚ) ≠ 0
    norm_num
  · show (7 : ℕ) ≠ 0
    norm_num
  · show true ≠ false
    simp

/-- C4 (amended): `begin` resets the interval ring, the published status, the
telemetry-ring cursors, and the burst arming state, and recomputes the derived
coefficients, but it preserves both channel states, the telemetry and burst
buffer contents, the burst ring head/tail/fill, and the function-static
artifact/peak/FSM state (prevEnv, prevAbove, lastEventMs, apneaActive,
hypoStartMs, hypoActive). -/
theorem c4_beginReset_effect (s : PipelineState) :
    (beginReset s).ch1 = s.ch1 ∧ (beginReset s).ch2 = s.ch2 ∧
    (beginReset s).tele = s.tele ∧
    (beginReset s).burstCh1 = s.burstCh1 ∧ (beginReset s).burstCh2 = s.burstCh2 ∧
    (beginReset s).burstHead = s.burstHead ∧ (beginReset s).burstTail = s.burstTail ∧
    (beginReset s).burstFill = s.burstFill ∧
    (beginReset s).prevEnvArt = s.prevEnvArt ∧ (beginReset s).prevAbove = s.prevAbove ∧
    (beginReset s).lastEventMs = s.lastEventMs ∧
    (beginReset s).apneaActive = s.apneaActive ∧
    (beginReset s).hypoStartMs = s.hypoStartMs ∧ (beginReset s).hypoActive = s.hypoActive ∧
    (beginReset s).rrBuf = List.replicate RR_WIN 0 ∧ (beginReset s).rrIdx = 0 ∧
    (beginReset s).rrFill = 0 ∧ (beginReset s).stat = Status.init ∧
    (beginReset s).tlHead = 0 ∧ (beginReset s).tlTail = 0 ∧
    (beginReset s).burstActive = false ∧ (beginReset s).burstPostRemain = 0 := by
  repeat' apply And.intro
  all_goals rfl

end BreathPipeline
